import Mathlib

/-!
Shallow embedding of the retrying paginated-fetch client of the
`annual-review` repository (scripts/fetch_confluence.py,
scripts/fetch_sprint_totals.py, scripts/pr_utils.py) together with the
scripts' `load_dotenv` helper, and proofs of the specification claims
about them.

Network I/O is modelled by passing, for every HTTP attempt, the response
the server gives to that attempt (`Nat → HttpResp α`: attempt number,
counted from 1 as in the Python `for attempt in range(1, _MAX_RETRIES + 1)`
loop, to response).  `time.sleep` calls are recorded in a trace instead of
being performed.  Parsed JSON payloads are kept abstract (`α`) where their
shape does not matter.
-/

namespace AnnualReview

/-- `_MAX_RETRIES = 5` (fetch_sprint_totals.py, fetch_confluence.py, pr_utils.py). -/
def MAX_RETRIES : Nat := 5

/-- `_RATE_LIMIT_WAIT = 60` — fallback wait when the Retry-After header is absent. -/
def RATE_LIMIT_WAIT : Nat := 60

/-- `_BACKOFF_BASE = 5` — base for exponential back-off on 5xx. -/
def BACKOFF_BASE : Nat := 5

/-- `_PAGE_LIMIT = 50` (fetch_confluence.py). -/
def PAGE_LIMIT : Nat := 50

/-- The server's reply to one HTTP attempt, as seen through `urllib`:
a successful response whose body parses to a payload `a`, an
`urllib.error.HTTPError` with status code, optional parsed `Retry-After`
header and response body, or an `urllib.error.URLError` (network error). -/
inductive HttpResp (α : Type) where
  | ok (data : α)
  | httpErr (code : Nat) (retryAfter : Option Nat) (body : String)
  | netErr (reason : String)

/-- The `RuntimeError`s raised by `jira_get` / `jira_post` / `confluence_get`,
kept structured: which branch raised, with the diagnostic payload the
message carries (`detail` is the response body truncated to 500 characters,
`body[:500]` in the source). -/
inductive JiraError where
  | authFailed
  | forbidden
  | gone (detail : String)
  | apiError (code : Nat) (detail : String)
  | networkError (reason : String)
deriving DecidableEq

/-- How one call of the retry loop ends: a normal `return` of the parsed
body, a raised `RuntimeError`, or the fall-through `return {}` after the
`for` loop (the line the source annotates `# unreachable`). -/
inductive LoopOutcome (α : Type) where
  | returned (a : α)
  | raised (e : JiraError)
  | fellThrough
deriving DecidableEq

/-- Result of running the retry loop: its outcome, the list of
`time.sleep` durations in the order they were performed, and the number
of HTTP attempts issued. -/
structure HttpRun (α : Type) where
  outcome : LoopOutcome α
  sleeps : List Nat
  requests : Nat
deriving DecidableEq

/-- The body of the `for attempt in range(1, _MAX_RETRIES + 1)` loop shared
verbatim by `jira_get` and `jira_post` (fetch_sprint_totals.py): try the
request; on HTTPError raise at once for 401/403/410, sleep the
`Retry-After` hint (default 60) for 429, otherwise back off
`_BACKOFF_BASE * 2 ** attempt` and raise when `attempt == _MAX_RETRIES`;
on URLError back off the same way.  `remaining` counts the loop
iterations still available; reaching 0 is the loop running off its end. -/
def jiraRetryAux {α : Type} (resps : Nat → HttpResp α) : Nat → Nat → HttpRun α
  | _, 0 => ⟨.fellThrough, [], 0⟩
  | attempt, remaining + 1 =>
    match resps attempt with
    | .ok a => ⟨.returned a, [], 1⟩
    | .httpErr code retryAfter body =>
      if code = 401 then ⟨.raised .authFailed, [], 1⟩
      else if code = 403 then ⟨.raised .forbidden, [], 1⟩
      else if code = 410 then ⟨.raised (.gone (body.take 500)), [], 1⟩
      else if code = 429 then
        let wait := retryAfter.getD RATE_LIMIT_WAIT
        let rest := jiraRetryAux resps (attempt + 1) remaining
        ⟨rest.outcome, wait :: rest.sleeps, rest.requests + 1⟩
      else
        let wait := BACKOFF_BASE * 2 ^ attempt
        if attempt = MAX_RETRIES then ⟨.raised (.apiError code (body.take 500)), [], 1⟩
        else
          let rest := jiraRetryAux resps (attempt + 1) remaining
          ⟨rest.outcome, wait :: rest.sleeps, rest.requests + 1⟩
    | .netErr reason =>
      let wait := BACKOFF_BASE * 2 ^ attempt
      if attempt = MAX_RETRIES then ⟨.raised (.networkError reason), [], 1⟩
      else
        let rest := jiraRetryAux resps (attempt + 1) remaining
        ⟨rest.outcome, wait :: rest.sleeps, rest.requests + 1⟩

/-- `jira_get(url, auth_header, params)`: the request descriptor (URL,
query parameters, headers) is built once before the loop and reused
unchanged on every attempt; only the per-attempt server responses vary. -/
def jira_get {α : Type} (resps : Nat → HttpResp α) : HttpRun α :=
  jiraRetryAux resps 1 MAX_RETRIES

/-- `jira_post(url, auth_header, body)` — identical retry/error handling
to `jira_get` (the loop bodies are copies in the source). -/
def jira_post {α : Type} (resps : Nat → HttpResp α) : HttpRun α :=
  jiraRetryAux resps 1 MAX_RETRIES

/-- Loop body of `confluence_get` (fetch_confluence.py): same as the JIRA
loop except that there is no 410 branch — a 410 falls into the generic
back-off branch. -/
def confluenceRetryAux {α : Type} (resps : Nat → HttpResp α) : Nat → Nat → HttpRun α
  | _, 0 => ⟨.fellThrough, [], 0⟩
  | attempt, remaining + 1 =>
    match resps attempt with
    | .ok a => ⟨.returned a, [], 1⟩
    | .httpErr code retryAfter body =>
      if code = 401 then ⟨.raised .authFailed, [], 1⟩
      else if code = 403 then ⟨.raised .forbidden, [], 1⟩
      else if code = 429 then
        let wait := retryAfter.getD RATE_LIMIT_WAIT
        let rest := confluenceRetryAux resps (attempt + 1) remaining
        ⟨rest.outcome, wait :: rest.sleeps, rest.requests + 1⟩
      else
        let wait := BACKOFF_BASE * 2 ^ attempt
        if attempt = MAX_RETRIES then ⟨.raised (.apiError code (body.take 500)), [], 1⟩
        else
          let rest := confluenceRetryAux resps (attempt + 1) remaining
          ⟨rest.outcome, wait :: rest.sleeps, rest.requests + 1⟩
    | .netErr reason =>
      let wait := BACKOFF_BASE * 2 ^ attempt
      if attempt = MAX_RETRIES then ⟨.raised (.networkError reason), [], 1⟩
      else
        let rest := confluenceRetryAux resps (attempt + 1) remaining
        ⟨rest.outcome, wait :: rest.sleeps, rest.requests + 1⟩

/-- `confluence_get(url, auth_header, params)`. -/
def confluence_get {α : Type} (resps : Nat → HttpResp α) : HttpRun α :=
  confluenceRetryAux resps 1 MAX_RETRIES

/-! ### The gh CLI wrapper (pr_utils.py) -/

/-- Result of one `subprocess.run(["gh", *args], ...)` invocation:
exit code 0 with a stdout that parses as JSON, or a non-zero exit with
the (stripped) stderr text. -/
inductive GhResp (α : Type) where
  | ok (data : α)
  | err (stderr : String)

/-- How `gh(*args)` ends: the parsed stdout, the warn-and-`return []`
path taken on a non-rate-limit error, the `RuntimeError` raised when the
rate limit persists after `_MAX_RETRIES` attempts, or the fall-through
`return []` after the loop. -/
inductive GhOutcome (α : Type) where
  | returned (a : α)
  | warnedEmpty
  | raisedRateLimit
  | fellThrough
deriving DecidableEq

/-- Result of running `gh`: outcome, number of
`_wait_for_rate_limit_reset()` waits performed, number of `gh`
invocations issued. -/
structure GhRun (α : Type) where
  outcome : GhOutcome α
  rateWaits : Nat
  requests : Nat
deriving DecidableEq

/-- `_RATE_LIMIT_PHRASES = ("rate limit", "secondary rate", "429")`. -/
def RATE_LIMIT_PHRASES : List String := ["rate limit", "secondary rate", "429"]

/-- `pat` occurs as a contiguous substring of `hay` (both as char lists). -/
def containsSub (hay pat : List Char) : Bool :=
  pat.isPrefixOf hay ||
    match hay with
    | [] => false
    | _ :: t => containsSub t pat

/-- `any(phrase in stderr.lower() for phrase in _RATE_LIMIT_PHRASES)`. -/
def rateLimitPhrase (stderr : String) : Bool :=
  RATE_LIMIT_PHRASES.any fun p =>
    containsSub (stderr.toList.map Char.toLower) p.toList

/-- Loop body of `gh(*args)` (pr_utils.py): run the command; on success
parse and return stdout; if stderr matches a rate-limit phrase raise
after `_MAX_RETRIES` attempts, otherwise wait for the rate-limit reset
and retry; on any other error print a warning and return `[]`. -/
def ghAux {α : Type} (resps : Nat → GhResp α) : Nat → Nat → GhRun α
  | _, 0 => ⟨.fellThrough, 0, 0⟩
  | attempt, remaining + 1 =>
    match resps attempt with
    | .ok a => ⟨.returned a, 0, 1⟩
    | .err stderr =>
      if rateLimitPhrase stderr then
        if attempt = MAX_RETRIES then ⟨.raisedRateLimit, 0, 1⟩
        else
          let rest := ghAux resps (attempt + 1) remaining
          ⟨rest.outcome, rest.rateWaits + 1, rest.requests + 1⟩
      else ⟨.warnedEmpty, 0, 1⟩

/-- `gh(*args)` — same argument vector on every attempt; only the
per-attempt outcomes vary. -/
def gh {α : Type} (resps : Nat → GhResp α) : GhRun α :=
  ghAux resps 1 MAX_RETRIES

/-! ### Offset-mode pagination: `fetch_pages` (fetch_confluence.py)

The Confluence server is modelled as a function from the `start` query
parameter to the `results` list of the response.  Each result record is
projected 1-1 and in order onto an output dict (id/title/space/url/…);
that projection does not affect any pagination property, so records are
kept abstract and accumulated unchanged.  The `while True:` loop is given
fuel; `none` means the loop was still running when the fuel ran out. -/

/-- The `while True:` loop of `fetch_pages`: request `start`, append all
returned records, advance `start` by the number of records actually
returned, stop when a page returns fewer than `limit` records.  Returns
the accumulated records from this iteration onward together with the
list of `start` offsets requested. -/
def fetchPagesAux {α : Type} (srv : Nat → List α) (limit : Nat) : Nat → Nat → Option (List α × List Nat)
  | _, 0 => none
  | start, fuel + 1 =>
    let results := srv start
    let fetched := results.length
    if fetched < limit then some (results, [start])
    else
      match fetchPagesAux srv limit (start + fetched) fuel with
      | none => none
      | some (recs, offs) => some (results ++ recs, start :: offs)

/-- `fetch_pages(base_url, auth_header, cql)`: offsets start at 0, page
size is `_PAGE_LIMIT = 50`. -/
def fetch_pages {α : Type} (srv : Nat → List α) (fuel : Nat) : Option (List α × List Nat) :=
  fetchPagesAux srv PAGE_LIMIT 0 fuel

/-! ### Token-mode pagination: `fetch_sprint_total` (fetch_sprint_totals.py)

The `/rest/api/3/search/jql` responses are modelled as the successive
pages the server hands back (the continuation token is opaque and merely
echoed back by the client).  Story-point values are JSON numbers,
modelled as exact rationals. -/

/-- One issue of a search response: its `fields` object, mapping a field
id to its value — `none` inside means the field is present but `null`;
an absent key and a `null` value are indistinguishable to the source's
`fields.get(f) is not None` test. -/
structure Issue where
  fields : List (String × Option ℚ)
deriving DecidableEq

/-- `fields.get(f)`, collapsing "absent" and "null" to `none`. -/
def getField (iss : Issue) (f : String) : Option ℚ :=
  match iss.fields.lookup f with
  | some v => v
  | none => none

/-- `next((fields[f] for f in sp_fields if fields.get(f) is not None), None)`:
the first candidate field, in order, whose value is non-null. -/
def firstSp (spFields : List String) (iss : Issue) : Option ℚ :=
  match spFields with
  | [] => none
  | f :: rest =>
    match getField iss f with
    | some v => some v
    | none => firstSp rest iss

/-- One page of the search response: `data.get("issues", [])` and
`data.get("nextPageToken")`. -/
structure SearchPage where
  issues : List Issue
  nextPageToken : Option String
deriving DecidableEq

/-- Python truthiness of the token as used in `if next_page_token:` and
`not next_page_token`: `None` and the empty string are falsy. -/
def tokenTruthy : Option String → Bool
  | none => false
  | some s => !s.isEmpty

/-- The three running counters of `fetch_sprint_total`. -/
structure SprintAcc where
  total_tickets : Nat
  total_sp : ℚ
  null_sp_count : Nat
deriving DecidableEq

/-- Body of the `for issue in issues:` loop: add the first non-null
story-point value, or count the ticket as having no story points. -/
def processIssue (spFields : List String) (acc : SprintAcc) (iss : Issue) : SprintAcc :=
  match firstSp spFields iss with
  | some v => { acc with total_sp := acc.total_sp + v }
  | none => { acc with null_sp_count := acc.null_sp_count + 1 }

/-- Handling of one page inside the `while True:` loop: fold the issue
loop over the page's issues, then `total_tickets += len(issues)`. -/
def stepPage (spFields : List String) (acc : SprintAcc) (issues : List Issue) : SprintAcc :=
  let a := issues.foldl (processIssue spFields) acc
  { a with total_tickets := a.total_tickets + issues.length }

/-- The `while True:` pagination loop of `fetch_sprint_total`: process
the next page, then `if not issues or not next_page_token: break`.
The input list holds the server's response to each successive request;
`none` means the loop asked for a further page for which no response was
supplied.  Returns the final counters and the number of requests issued. -/
def fetchSprintAux (spFields : List String) : List SearchPage → SprintAcc → Option (SprintAcc × Nat)
  | [], _ => none
  | pg :: rest, acc =>
    let acc2 := stepPage spFields acc pg.issues
    if pg.issues.isEmpty || !tokenTruthy pg.nextPageToken then some (acc2, 1)
    else (fetchSprintAux spFields rest acc2).map fun p => (p.1, p.2 + 1)

/-- Round-half-to-even at integer precision, the rounding Python's
`round` uses. -/
def pyRoundInt (q : ℚ) : ℤ :=
  if q - ⌊q⌋ < 1 / 2 then ⌊q⌋
  else if 1 / 2 < q - ⌊q⌋ then ⌊q⌋ + 1
  else if 2 ∣ ⌊q⌋ then ⌊q⌋ else ⌊q⌋ + 1

/-- `round(x, 1)`. -/
def pyRound1 (q : ℚ) : ℚ := (pyRoundInt (q * 10) : ℚ) / 10

/-- The dict `fetch_sprint_total` returns:
`{"total_tickets": …, "total_story_points": round(total_sp, 1), "_null_sp_count": …}`. -/
structure SprintResult where
  total_tickets : Nat
  total_story_points : ℚ
  null_sp_count : Nat
deriving DecidableEq

/-- Packing the final counters into the returned dict. -/
def finalizeSprint (acc : SprintAcc) : SprintResult :=
  ⟨acc.total_tickets, pyRound1 acc.total_sp, acc.null_sp_count⟩

/-- `fetch_sprint_total(base_url, auth_header, project, sprint_name, sp_fields)`
over a given sequence of server pages; also reports how many
requests the pagination loop issued. -/
def fetch_sprint_total (spFields : List String) (pages : List SearchPage) :
    Option (SprintResult × Nat) :=
  (fetchSprintAux spFields pages ⟨0, 0, 0⟩).map fun p => (finalizeSprint p.1, p.2)

/-- The claim-side aggregate: the result obtained from a flat list of
issues, all pagination removed. -/
def aggregateIssues (spFields : List String) (issues : List Issue) : SprintResult :=
  finalizeSprint (stepPage spFields ⟨0, 0, 0⟩ issues)

/-- A chunking of the server's issue list into successive pages: every
page but the last carries a (truthy) continuation token, the last
carries none. -/
def pagesOf : List (List Issue) → List SearchPage
  | [] => []
  | [c] => [⟨c, none⟩]
  | c :: rest => ⟨c, some "next"⟩ :: pagesOf rest

/-! ### `search_pr_numbers` (pr_utils.py), composed with `gh` -/

/-- One item of a `search/issues` response page. -/
structure SearchItem where
  repository_url : String
  number : Nat
deriving DecidableEq

/-- A `search/issues` response object (a JSON dict with an `items` key).
When `gh` returns `[]` instead (its warn path), `isinstance(data, dict)`
is false and the caller uses `items = []`. -/
structure SearchData where
  items : List SearchItem
deriving DecidableEq

/-- `item["repository_url"].removeprefix("https://api.github.com/repos/")`. -/
def repoOfUrl (url : String) : String :=
  let pre := "https://api.github.com/repos/".toList
  if pre.isPrefixOf url.toList then String.mk (url.toList.drop pre.length) else url

/-- Overall result of a composed fetch: the returned value, a raised
`RuntimeError`, or fuel exhaustion (the loop was still running). -/
inductive RunResult (α : Type) where
  | done (a : α)
  | raisedError
  | outOfFuel
deriving DecidableEq

/-- The `while True:` loop of `search_pr_numbers`, from the requested
page onward.  `resps page attempt` is the server's answer to the
`attempt`-th `gh` invocation for `search/issues?...&page={page}`.
Per the source: break (returning what was accumulated) when `items` is
empty, append `(repo, number)` for every item, break after a page of
fewer than `per_page = 100` items, otherwise fetch the next page. -/
def searchPrAux (resps : Nat → Nat → GhResp SearchData) : Nat → Nat → RunResult (List (String × Nat))
  | _, 0 => .outOfFuel
  | page, fuel + 1 =>
    match (gh (resps page)).outcome with
    | .returned data =>
      if data.items.isEmpty then .done []
      else
        let batch := data.items.map fun it => (repoOfUrl it.repository_url, it.number)
        if data.items.length < 100 then .done batch
        else
          match searchPrAux resps (page + 1) fuel with
          | .done rest => .done (batch ++ rest)
          | r => r
    | .warnedEmpty => .done []
    | .fellThrough => .done []
    | .raisedRateLimit => .raisedError

/-- `search_pr_numbers(query, since)`: pages are requested starting at
`page = 1`. -/
def search_pr_numbers (resps : Nat → Nat → GhResp SearchData) (fuel : Nat) :
    RunResult (List (String × Nat)) :=
  searchPrAux resps 1 fuel

/-! ### `fetch_prs_for_numbers` (pr_utils.py)

`fetch_pr(repo, number)` performs `gh pr view` and normalises the
result; it returns `None` when `gh` produced a falsy or non-dict value.
Only the `createdAt` key of the returned dict matters to
`fetch_prs_for_numbers`, so a PR record is modelled by `createdAt`
together with the identifying fields; the outcome of the i-th
`fetch_pr` call (0-indexed position in the input list) is supplied as
an oracle `fetchRes : Nat → Option PRecord`. -/

/-- The parts of a normalised PR dict that this logic can observe. -/
structure PRecord where
  repo : String
  number : Nat
  createdAt : String
deriving DecidableEq

/-- Python-dict assignment `results[(repo, number)] = pr` on an
insertion-ordered association list: overwrite in place if the key is
present, else append. -/
def dictInsert (k : String × Nat) (v : PRecord) :
    List ((String × Nat) × PRecord) → List ((String × Nat) × PRecord)
  | [] => [(k, v)]
  | (k', v') :: rest => if k' = k then (k, v) :: rest else (k', v') :: dictInsert k v rest

/-- The `for i, (repo, number) in enumerate(numbers, 1):` loop:
`if pr: results[(repo, number)] = pr`. -/
def buildResults (fetchRes : Nat → Option PRecord) :
    List (String × Nat) → Nat → List ((String × Nat) × PRecord) → List ((String × Nat) × PRecord)
  | [], _, d => d
  | p :: ps, i, d =>
    buildResults fetchRes ps (i + 1)
      (match fetchRes i with
       | some pr => dictInsert p pr d
       | none => d)

/-- Lexicographic `≤` on char lists — Python's string comparison used by
`sorted(..., key=lambda p: p["createdAt"])`. -/
def strLe : List Char → List Char → Bool
  | [], _ => true
  | _ :: _, [] => false
  | a :: as, b :: bs =>
    if a.toNat < b.toNat then true
    else if b.toNat < a.toNat then false
    else strLe as bs

/-- The sort key comparison of `fetch_prs_for_numbers`. -/
def createdLe (a b : PRecord) : Bool :=
  strLe a.createdAt.toList b.createdAt.toList

/-- `fetch_prs_for_numbers(numbers)`: build the `results` dict, then
`sorted(results.values(), key=lambda p: p["createdAt"])` (a stable
merge sort, like CPython's). -/
def fetch_prs_for_numbers (fetchRes : Nat → Option PRecord) (numbers : List (String × Nat)) :
    List PRecord :=
  ((buildResults fetchRes numbers 0 []).map Prod.snd).mergeSort createdLe

/-- Claim-side description of the dict's content: the result of the last
fetch of `p` that succeeded (a later `None` does not erase an earlier
success, since only truthy results are assigned). -/
def lastSuccess (fetchRes : Nat → Option PRecord) :
    List (String × Nat) → Nat → (String × Nat) → Option PRecord
  | [], _, _ => none
  | q :: ps, i, p =>
    match lastSuccess fetchRes ps (i + 1) p with
    | some v => some v
    | none => if q = p then fetchRes i else none

/-! ### `load_dotenv` (fetch_sprint_totals.py / fetch_confluence.py)

`os.environ` is modelled as a function from key to optional value; the
`.env` file as `none` (file absent) or the list of its lines; strings as
char lists so that every Python string operation is explicit. -/

/-- The process environment. -/
def Env : Type := List Char → Option (List Char)

/-- Remove leading and trailing characters satisfying `p`
(Python `str.strip` / `str.strip(chars)`). -/
def stripIf (p : Char → Bool) (l : List Char) : List Char :=
  ((l.dropWhile p).reverse.dropWhile p).reverse

/-- `line.strip()`. -/
def pyStrip (l : List Char) : List Char := stripIf (fun c => c.isWhitespace) l

/-- The body of the `for line in dotenv_path.read_text().splitlines():`
loop: skip blank and `#` lines and lines without `=`; split at the first
`=`; strip the key; strip the value and then its surrounding quote
characters; assign only when the key is non-empty and not already in
`os.environ` (the shell environment takes precedence). -/
def dotenvStep (env : Env) (rawLine : List Char) : Env :=
  let line := pyStrip rawLine
  if line.isEmpty then env
  else if line.head? = some '#' then env
  else if !line.contains '=' then env
  else
    let key := pyStrip (line.takeWhile fun c => !(c == '='))
    let valRaw := (line.dropWhile fun c => !(c == '=')).drop 1
    let val := stripIf (fun c => c == Char.ofNat 39)
      (stripIf (fun c => c == Char.ofNat 34) (pyStrip valRaw))
    if !key.isEmpty && (env key).isNone then
      fun k => if k = key then some val else env k
    else env

/-- `load_dotenv(dotenv_path)`: no-op when the file is absent, otherwise
process each line in order (later lines see earlier insertions). -/
def load_dotenv (file : Option (List (List Char))) (env : Env) : Env :=
  match file with
  | none => env
  | some lines => lines.foldl dotenvStep env

/-! ## Step lemmas for the retry loops -/

theorem MAX_RETRIES_succ : MAX_RETRIES = 4 + 1 := rfl

theorem jiraRetryAux_ok {α : Type} {resps : Nat → HttpResp α} {attempt : Nat} {a : α}
    (h : resps attempt = .ok a) (r : Nat) :
    jiraRetryAux resps attempt (r + 1) = ⟨.returned a, [], 1⟩ := by
  conv_lhs => unfold jiraRetryAux
  rw [h]

theorem jiraRetryAux_401 {α : Type} {resps : Nat → HttpResp α} {attempt : Nat}
    {ra : Option Nat} {body : String} (h : resps attempt = .httpErr 401 ra body) (r : Nat) :
    jiraRetryAux resps attempt (r + 1) = ⟨.raised .authFailed, [], 1⟩ := by
  conv_lhs => unfold jiraRetryAux
  rw [h]
  rfl

theorem jiraRetryAux_403 {α : Type} {resps : Nat → HttpResp α} {attempt : Nat}
    {ra : Option Nat} {body : String} (h : resps attempt = .httpErr 403 ra body) (r : Nat) :
    jiraRetryAux resps attempt (r + 1) = ⟨.raised .forbidden, [], 1⟩ := by
  conv_lhs => unfold jiraRetryAux
  rw [h]
  rfl

theorem jiraRetryAux_410 {α : Type} {resps : Nat → HttpResp α} {attempt : Nat}
    {ra : Option Nat} {body : String} (h : resps attempt = .httpErr 410 ra body) (r : Nat) :
    jiraRetryAux resps attempt (r + 1) = ⟨.raised (.gone (body.take 500)), [], 1⟩ := by
  conv_lhs => unfold jiraRetryAux
  rw [h]
  rfl

theorem jiraRetryAux_429 {α : Type} {resps : Nat → HttpResp α} {attempt : Nat}
    {ra : Option Nat} {body : String} (h : resps attempt = .httpErr 429 ra body) (r : Nat) :
    jiraRetryAux resps attempt (r + 1) =
      ⟨(jiraRetryAux resps (attempt + 1) r).outcome,
        ra.getD RATE_LIMIT_WAIT :: (jiraRetryAux resps (attempt + 1) r).sleeps,
        (jiraRetryAux resps (attempt + 1) r).requests + 1⟩ := by
  conv_lhs => unfold jiraRetryAux
  rw [h]
  rfl

theorem jiraRetryAux_other_last {α : Type} {resps : Nat → HttpResp α} {attempt code : Nat}
    {ra : Option Nat} {body : String} (h : resps attempt = .httpErr code ra body)
    (h1 : code ≠ 401) (h3 : code ≠ 403) (h10 : code ≠ 410) (h29 : code ≠ 429)
    (hlast : attempt = MAX_RETRIES) (r : Nat) :
    jiraRetryAux resps attempt (r + 1) = ⟨.raised (.apiError code (body.take 500)), [], 1⟩ := by
  conv_lhs => unfold jiraRetryAux
  rw [h]
  simp only [if_neg h1, if_neg h3, if_neg h10, if_neg h29, if_pos hlast]

theorem jiraRetryAux_other_retry {α : Type} {resps : Nat → HttpResp α} {attempt code : Nat}
    {ra : Option Nat} {body : String} (h : resps attempt = .httpErr code ra body)
    (h1 : code ≠ 401) (h3 : code ≠ 403) (h10 : code ≠ 410) (h29 : code ≠ 429)
    (hlast : attempt ≠ MAX_RETRIES) (r : Nat) :
    jiraRetryAux resps attempt (r + 1) =
      ⟨(jiraRetryAux resps (attempt + 1) r).outcome,
        BACKOFF_BASE * 2 ^ attempt :: (jiraRetryAux resps (attempt + 1) r).sleeps,
        (jiraRetryAux resps (attempt + 1) r).requests + 1⟩ := by
  conv_lhs => unfold jiraRetryAux
  rw [h]
  simp only [if_neg h1, if_neg h3, if_neg h10, if_neg h29, if_neg hlast]

theorem jiraRetryAux_net_last {α : Type} {resps : Nat → HttpResp α} {attempt : Nat}
    {reason : String} (h : resps attempt = .netErr reason)
    (hlast : attempt = MAX_RETRIES) (r : Nat) :
    jiraRetryAux resps attempt (r + 1) = ⟨.raised (.networkError reason), [], 1⟩ := by
  conv_lhs => unfold jiraRetryAux
  rw [h]
  simp only [if_pos hlast]

theorem jiraRetryAux_net_retry {α : Type} {resps : Nat → HttpResp α} {attempt : Nat}
    {reason : String} (h : resps attempt = .netErr reason)
    (hlast : attempt ≠ MAX_RETRIES) (r : Nat) :
    jiraRetryAux resps attempt (r + 1) =
      ⟨(jiraRetryAux resps (attempt + 1) r).outcome,
        BACKOFF_BASE * 2 ^ attempt :: (jiraRetryAux resps (attempt + 1) r).sleeps,
        (jiraRetryAux resps (attempt + 1) r).requests + 1⟩ := by
  conv_lhs => unfold jiraRetryAux
  rw [h]
  simp only [if_neg hlast]

theorem confluenceRetryAux_ok {α : Type} {resps : Nat → HttpResp α} {attempt : Nat} {a : α}
    (h : resps attempt = .ok a) (r : Nat) :
    confluenceRetryAux resps attempt (r + 1) = ⟨.returned a, [], 1⟩ := by
  conv_lhs => unfold confluenceRetryAux
  rw [h]

theorem confluenceRetryAux_401 {α : Type} {resps : Nat → HttpResp α} {attempt : Nat}
    {ra : Option Nat} {body : String} (h : resps attempt = .httpErr 401 ra body) (r : Nat) :
    confluenceRetryAux resps attempt (r + 1) = ⟨.raised .authFailed, [], 1⟩ := by
  conv_lhs => unfold confluenceRetryAux
  rw [h]
  rfl

theorem confluenceRetryAux_429 {α : Type} {resps : Nat → HttpResp α} {attempt : Nat}
    {ra : Option Nat} {body : String} (h : resps attempt = .httpErr 429 ra body) (r : Nat) :
    confluenceRetryAux resps attempt (r + 1) =
      ⟨(confluenceRetryAux resps (attempt + 1) r).outcome,
        ra.getD RATE_LIMIT_WAIT :: (confluenceRetryAux resps (attempt + 1) r).sleeps,
        (confluenceRetryAux resps (attempt + 1) r).requests + 1⟩ := by
  conv_lhs => unfold confluenceRetryAux
  rw [h]
  rfl

theorem confluenceRetryAux_other_last {α : Type} {resps : Nat → HttpResp α} {attempt code : Nat}
    {ra : Option Nat} {body : String} (h : resps attempt = .httpErr code ra body)
    (h1 : code ≠ 401) (h3 : code ≠ 403) (h29 : code ≠ 429)
    (hlast : attempt = MAX_RETRIES) (r : Nat) :
    confluenceRetryAux resps attempt (r + 1) =
      ⟨.raised (.apiError code (body.take 500)), [], 1⟩ := by
  conv_lhs => unfold confluenceRetryAux
  rw [h]
  simp only [if_neg h1, if_neg h3, if_neg h29, if_pos hlast]

theorem confluenceRetryAux_other_retry {α : Type} {resps : Nat → HttpResp α} {attempt code : Nat}
    {ra : Option Nat} {body : String} (h : resps attempt = .httpErr code ra body)
    (h1 : code ≠ 401) (h3 : code ≠ 403) (h29 : code ≠ 429)
    (hlast : attempt ≠ MAX_RETRIES) (r : Nat) :
    confluenceRetryAux resps attempt (r + 1) =
      ⟨(confluenceRetryAux resps (attempt + 1) r).outcome,
        BACKOFF_BASE * 2 ^ attempt :: (confluenceRetryAux resps (attempt + 1) r).sleeps,
        (confluenceRetryAux resps (attempt + 1) r).requests + 1⟩ := by
  conv_lhs => unfold confluenceRetryAux
  rw [h]
  simp only [if_neg h1, if_neg h3, if_neg h29, if_neg hlast]

theorem ghAux_ok {α : Type} {resps : Nat → GhResp α} {attempt : Nat} {a : α}
    (h : resps attempt = .ok a) (r : Nat) :
    ghAux resps attempt (r + 1) = ⟨.returned a, 0, 1⟩ := by
  conv_lhs => unfold ghAux
  rw [h]

theorem ghAux_nonrate {α : Type} {resps : Nat → GhResp α} {attempt : Nat}
    {s : String} (h : resps attempt = .err s) (hph : rateLimitPhrase s = false) (r : Nat) :
    ghAux resps attempt (r + 1) = ⟨.warnedEmpty, 0, 1⟩ := by
  conv_lhs => unfold ghAux
  rw [h]
  simp only [hph, Bool.false_eq_true, if_false]

theorem ghAux_rate_last {α : Type} {resps : Nat → GhResp α} {attempt : Nat}
    {s : String} (h : resps attempt = .err s) (hph : rateLimitPhrase s = true)
    (hlast : attempt = MAX_RETRIES) (r : Nat) :
    ghAux resps attempt (r + 1) = ⟨.raisedRateLimit, 0, 1⟩ := by
  conv_lhs => unfold ghAux
  rw [h]
  simp only [hph, if_true, if_pos hlast]

theorem ghAux_rate_retry {α : Type} {resps : Nat → GhResp α} {attempt : Nat}
    {s : String} (h : resps attempt = .err s) (hph : rateLimitPhrase s = true)
    (hlast : attempt ≠ MAX_RETRIES) (r : Nat) :
    ghAux resps attempt (r + 1) =
      ⟨(ghAux resps (attempt + 1) r).outcome,
        (ghAux resps (attempt + 1) r).rateWaits + 1,
        (ghAux resps (attempt + 1) r).requests + 1⟩ := by
  conv_lhs => unfold ghAux
  rw [h]
  simp only [hph, if_true, if_neg hlast]

/-! ## When can the JIRA/Confluence loops fall off their end?

The `return {}` after the loop (annotated `# unreachable` in the source)
is in fact reached exactly when every one of the 5 attempts was consumed,
the last one by a 429 response: 401/403/410 raise, a success returns, and
5xx/network errors raise at the last attempt — only the 429 branch can
spend the final iteration without returning or raising. -/

theorem jiraRetryAux_fellThrough_429 {α : Type} :
    ∀ (r attempt : Nat) (resps : Nat → HttpResp α),
      attempt + r = MAX_RETRIES + 1 → 0 < r →
      (jiraRetryAux resps attempt r).outcome = .fellThrough →
      ∃ ra body, resps MAX_RETRIES = .httpErr 429 ra body := by
  intro r
  induction r with
  | zero => intro attempt resps _ h0 _; exact absurd h0 (by omega)
  | succ n ih =>
    intro attempt resps hinv _ hout
    have hmax : MAX_RETRIES = 5 := rfl
    rcases hresp : resps attempt with a | ⟨code, ra, body⟩ | reason
    · rw [jiraRetryAux_ok hresp n] at hout
      exact absurd hout (by simp)
    · by_cases h1 : code = 401
      · subst h1; rw [jiraRetryAux_401 hresp n] at hout
        exact absurd hout (by simp)
      by_cases h3 : code = 403
      · subst h3; rw [jiraRetryAux_403 hresp n] at hout
        exact absurd hout (by simp)
      by_cases h10 : code = 410
      · subst h10; rw [jiraRetryAux_410 hresp n] at hout
        exact absurd hout (by simp)
      by_cases h29 : code = 429
      · subst h29
        rw [jiraRetryAux_429 hresp n] at hout
        simp only at hout
        match n, hout with
        | 0, _ =>
          have ha : attempt = MAX_RETRIES := by omega
          exact ⟨ra, body, by rw [← ha]; exact hresp⟩
        | m + 1, hout => exact ih (attempt + 1) resps (by omega) (by omega) hout
      by_cases hM : attempt = MAX_RETRIES
      · rw [jiraRetryAux_other_last hresp h1 h3 h10 h29 hM n] at hout
        exact absurd hout (by simp)
      · rw [jiraRetryAux_other_retry hresp h1 h3 h10 h29 hM n] at hout
        simp only at hout
        match n, hout with
        | 0, _ => exact absurd (by omega : attempt = MAX_RETRIES) hM
        | m + 1, hout => exact ih (attempt + 1) resps (by omega) (by omega) hout
    · by_cases hM : attempt = MAX_RETRIES
      · rw [jiraRetryAux_net_last hresp hM n] at hout
        exact absurd hout (by simp)
      · rw [jiraRetryAux_net_retry hresp hM n] at hout
        simp only at hout
        match n, hout with
        | 0, _ => exact absurd (by omega : attempt = MAX_RETRIES) hM
        | m + 1, hout => exact ih (attempt + 1) resps (by omega) (by omega) hout

theorem confluenceRetryAux_fellThrough_429 {α : Type} :
    ∀ (r attempt : Nat) (resps : Nat → HttpResp α),
      attempt + r = MAX_RETRIES + 1 → 0 < r →
      (confluenceRetryAux resps attempt r).outcome = .fellThrough →
      ∃ ra body, resps MAX_RETRIES = .httpErr 429 ra body := by
  intro r
  induction r with
  | zero => intro attempt resps _ h0 _; exact absurd h0 (by omega)
  | succ n ih =>
    intro attempt resps hinv _ hout
    have hmax : MAX_RETRIES = 5 := rfl
    rcases hresp : resps attempt with a | ⟨code, ra, body⟩ | reason
    · rw [confluenceRetryAux_ok hresp n] at hout
      exact absurd hout (by simp)
    · by_cases h1 : code = 401
      · subst h1; rw [confluenceRetryAux_401 hresp n] at hout
        exact absurd hout (by simp)
      by_cases h3 : code = 403
      · subst h3
        have : confluenceRetryAux resps attempt (n + 1) = ⟨.raised .forbidden, [], 1⟩ := by
          conv_lhs => unfold confluenceRetryAux
          rw [hresp]
          rfl
        rw [this] at hout
        exact absurd hout (by simp)
      by_cases h29 : code = 429
      · subst h29
        rw [confluenceRetryAux_429 hresp n] at hout
        simp only at hout
        match n, hout with
        | 0, _ =>
          have ha : attempt = MAX_RETRIES := by omega
          exact ⟨ra, body, by rw [← ha]; exact hresp⟩
        | m + 1, hout => exact ih (attempt + 1) resps (by omega) (by omega) hout
      by_cases hM : attempt = MAX_RETRIES
      · rw [confluenceRetryAux_other_last hresp h1 h3 h29 hM n] at hout
        exact absurd hout (by simp)
      · rw [confluenceRetryAux_other_retry hresp h1 h3 h29 hM n] at hout
        simp only at hout
        match n, hout with
        | 0, _ => exact absurd (by omega : attempt = MAX_RETRIES) hM
        | m + 1, hout => exact ih (attempt + 1) resps (by omega) (by omega) hout
    · by_cases hM : attempt = MAX_RETRIES
      · have : confluenceRetryAux resps attempt (n + 1) = ⟨.raised (.networkError reason), [], 1⟩ := by
          conv_lhs => unfold confluenceRetryAux
          rw [hresp]
          simp only [if_pos hM]
        rw [this] at hout
        exact absurd hout (by simp)
      · have : confluenceRetryAux resps attempt (n + 1) =
            ⟨(confluenceRetryAux resps (attempt + 1) n).outcome,
              BACKOFF_BASE * 2 ^ attempt :: (confluenceRetryAux resps (attempt + 1) n).sleeps,
              (confluenceRetryAux resps (attempt + 1) n).requests + 1⟩ := by
          conv_lhs => unfold confluenceRetryAux
          rw [hresp]
          simp only [if_neg hM]
        rw [this] at hout
        simp only at hout
        match n, hout with
        | 0, _ => exact absurd (by omega : attempt = MAX_RETRIES) hM
        | m + 1, hout => exact ih (attempt + 1) resps (by omega) (by omega) hout

/-- `gh` takes its warn-and-return-`[]` path only when some attempt
failed with a stderr matching none of the rate-limit phrases. -/
theorem ghAux_warnedEmpty_nonrate {α : Type} :
    ∀ (r attempt : Nat) (resps : Nat → GhResp α),
      (ghAux resps attempt r).outcome = .warnedEmpty →
      ∃ k s, attempt ≤ k ∧ k < attempt + r ∧ resps k = .err s ∧ rateLimitPhrase s = false := by
  intro r
  induction r with
  | zero =>
    intro attempt resps hout
    exact absurd hout (by simp [ghAux])
  | succ n ih =>
    intro attempt resps hout
    rcases hresp : resps attempt with a | s
    · rw [ghAux_ok hresp n] at hout
      exact absurd hout (by simp)
    · rcases hph : rateLimitPhrase s with _ | _
      · exact ⟨attempt, s, le_refl _, by omega, hresp, hph⟩
      · by_cases hM : attempt = MAX_RETRIES
        · rw [ghAux_rate_last hresp hph hM n] at hout
          exact absurd hout (by simp)
        · rw [ghAux_rate_retry hresp hph hM n] at hout
          simp only at hout
          obtain ⟨k, s', hk1, hk2, hk3, hk4⟩ := ih (attempt + 1) resps hout
          exact ⟨k, s', by omega, by omega, hk3, hk4⟩

/-- Whenever at least one loop iteration is available, at least one HTTP
request is issued. -/
theorem jiraRetryAux_requests_pos {α : Type} (resps : Nat → HttpResp α) (attempt n : Nat) :
    1 ≤ (jiraRetryAux resps attempt (n + 1)).requests := by
  rcases hresp : resps attempt with a | ⟨code, ra, body⟩ | reason
  · rw [jiraRetryAux_ok hresp n]
  · by_cases h1 : code = 401
    · subst h1; rw [jiraRetryAux_401 hresp n]
    by_cases h3 : code = 403
    · subst h3; rw [jiraRetryAux_403 hresp n]
    by_cases h10 : code = 410
    · subst h10; rw [jiraRetryAux_410 hresp n]
    by_cases h29 : code = 429
    · subst h29; rw [jiraRetryAux_429 hresp n]; simp
    by_cases hM : attempt = MAX_RETRIES
    · rw [jiraRetryAux_other_last hresp h1 h3 h10 h29 hM n]
    · rw [jiraRetryAux_other_retry hresp h1 h3 h10 h29 hM n]; simp
  · by_cases hM : attempt = MAX_RETRIES
    · rw [jiraRetryAux_net_last hresp hM n]
    · rw [jiraRetryAux_net_retry hresp hM n]; simp

theorem confluenceRetryAux_requests_pos {α : Type} (resps : Nat → HttpResp α) (attempt n : Nat) :
    1 ≤ (confluenceRetryAux resps attempt (n + 1)).requests := by
  rcases hresp : resps attempt with a | ⟨code, ra, body⟩ | reason
  · rw [confluenceRetryAux_ok hresp n]
  · by_cases h1 : code = 401
    · subst h1; rw [confluenceRetryAux_401 hresp n]
    by_cases h3 : code = 403
    · subst h3
      have e : confluenceRetryAux resps attempt (n + 1) = ⟨.raised .forbidden, [], 1⟩ := by
        conv_lhs => unfold confluenceRetryAux
        rw [hresp]
        rfl
      rw [e]
    by_cases h29 : code = 429
    · subst h29; rw [confluenceRetryAux_429 hresp n]; simp
    by_cases hM : attempt = MAX_RETRIES
    · rw [confluenceRetryAux_other_last hresp h1 h3 h29 hM n]
    · rw [confluenceRetryAux_other_retry hresp h1 h3 h29 hM n]; simp
  · by_cases hM : attempt = MAX_RETRIES
    · have e : confluenceRetryAux resps attempt (n + 1) = ⟨.raised (.networkError reason), [], 1⟩ := by
        conv_lhs => unfold confluenceRetryAux
        rw [hresp]
        simp only [if_pos hM]
      rw [e]
    · have e : confluenceRetryAux resps attempt (n + 1) =
          ⟨(confluenceRetryAux resps (attempt + 1) n).outcome,
            BACKOFF_BASE * 2 ^ attempt :: (confluenceRetryAux resps (attempt + 1) n).sleeps,
            (confluenceRetryAux resps (attempt + 1) n).requests + 1⟩ := by
        conv_lhs => unfold confluenceRetryAux
        rw [hresp]
        simp only [if_neg hM]
      rw [e]; simp

/-! ## Claim C2 — exponential backoff and bounded retries on persistent errors -/

/-- C2 (amended): when every attempt is answered with the same HTTP error
whose status is none of 401/403/410/429, `jira_get`, `jira_post` and
`confluence_get` sleep `_BACKOFF_BASE * 2 ** attempt` seconds between
attempts (10 s, 20 s, 40 s, 80 s) and raise a terminal `RuntimeError`
after exactly `_MAX_RETRIES = 5` attempts carrying the last HTTP status
and the response body truncated to its first 500 characters; `gh`, by
contrast, performs no backoff on a non-rate-limit error — it prints a
warning and returns an empty list after a single attempt, raising
nothing. -/
theorem C2_exponential_backoff_amended :
    (∀ (α : Type) (resps : Nat → HttpResp α) (code : Nat) (ra : Nat → Option Nat)
        (bodies : Nat → String),
        (∀ i, 1 ≤ i → i ≤ 5 → resps i = .httpErr code (ra i) (bodies i)) →
        code ≠ 401 → code ≠ 403 → code ≠ 410 → code ≠ 429 →
        jira_get resps = ⟨.raised (.apiError code ((bodies 5).take 500)), [10, 20, 40, 80], 5⟩) ∧
    (∀ (α : Type) (resps : Nat → HttpResp α) (code : Nat) (ra : Nat → Option Nat)
        (bodies : Nat → String),
        (∀ i, 1 ≤ i → i ≤ 5 → resps i = .httpErr code (ra i) (bodies i)) →
        code ≠ 401 → code ≠ 403 → code ≠ 410 → code ≠ 429 →
        jira_post resps = ⟨.raised (.apiError code ((bodies 5).take 500)), [10, 20, 40, 80], 5⟩) ∧
    (∀ (α : Type) (resps : Nat → HttpResp α) (code : Nat) (ra : Nat → Option Nat)
        (bodies : Nat → String),
        (∀ i, 1 ≤ i → i ≤ 5 → resps i = .httpErr code (ra i) (bodies i)) →
        code ≠ 401 → code ≠ 403 → code ≠ 410 → code ≠ 429 →
        confluence_get resps =
          ⟨.raised (.apiError code ((bodies 5).take 500)), [10, 20, 40, 80], 5⟩) ∧
    (∀ (α : Type) (resps : Nat → GhResp α) (s : String),
        resps 1 = .err s → rateLimitPhrase s = false →
        gh resps = ⟨.warnedEmpty, 0, 1⟩) := by
  refine ⟨?_, ?_, ?_, ?_⟩
  · intro α resps code ra bodies h h1 h3 h10 h29
    have e1 := h 1 (by omega) (by omega)
    have e2 := h 2 (by omega) (by omega)
    have e3 := h 3 (by omega) (by omega)
    have e4 := h 4 (by omega) (by omega)
    have e5 := h 5 (by omega) (by omega)
    simp [jira_get, MAX_RETRIES, BACKOFF_BASE, jiraRetryAux, e1, e2, e3, e4, e5, h1, h3, h10, h29]
  · intro α resps code ra bodies h h1 h3 h10 h29
    have e1 := h 1 (by omega) (by omega)
    have e2 := h 2 (by omega) (by omega)
    have e3 := h 3 (by omega) (by omega)
    have e4 := h 4 (by omega) (by omega)
    have e5 := h 5 (by omega) (by omega)
    simp [jira_post, MAX_RETRIES, BACKOFF_BASE, jiraRetryAux, e1, e2, e3, e4, e5, h1, h3, h10, h29]
  · intro α resps code ra bodies h h1 h3 h10 h29
    have e1 := h 1 (by omega) (by omega)
    have e2 := h 2 (by omega) (by omega)
    have e3 := h 3 (by omega) (by omega)
    have e4 := h 4 (by omega) (by omega)
    have e5 := h 5 (by omega) (by omega)
    simp [confluence_get, MAX_RETRIES, BACKOFF_BASE, confluenceRetryAux,
      e1, e2, e3, e4, e5, h1, h3, h10, h29]
  · intro α resps s h hph
    have e : gh resps = ghAux resps 1 (4 + 1) := rfl
    rw [e, ghAux_nonrate h hph 4]

/-- C2 counterexample: `gh` answered a persistent HTTP 500 (surfaced as a
failed subprocess whose stderr matches no rate-limit phrase) issues a
single attempt, sleeps never, raises nothing, and returns the empty list
— not the claimed 5-attempt exponential backoff ending in a terminal
error. -/
theorem C2_gh_no_backoff_counterexample :
    gh (fun _ => (GhResp.err "HTTP 500 Internal Server Error" : GhResp Unit)) =
      ⟨.warnedEmpty, 0, 1⟩ ∧
    (gh (fun _ => (GhResp.err "HTTP 500 Internal Server Error" : GhResp Unit))).requests ≠ 5 := by
  constructor
  · have e : gh (fun _ => (GhResp.err "HTTP 500 Internal Server Error" : GhResp Unit)) =
        ghAux (fun _ => (GhResp.err "HTTP 500 Internal Server Error" : GhResp Unit)) 1 (4 + 1) := rfl
    rw [e, ghAux_nonrate rfl (by decide) 4]
  · have e : gh (fun _ => (GhResp.err "HTTP 500 Internal Server Error" : GhResp Unit)) =
        ghAux (fun _ => (GhResp.err "HTTP 500 Internal Server Error" : GhResp Unit)) 1 (4 + 1) := rfl
    rw [e, ghAux_nonrate rfl (by decide) 4]
    decide

/-- Concrete response schedules for the C2 witness. -/
def c2WJira : Nat → HttpResp Unit := fun _ => .httpErr 500 none "boom"

def c2WGh : Nat → GhResp Unit := fun _ => .err "fatal: not a git repository"

theorem C2_exponential_backoff_amended_witness :
    jira_get c2WJira = ⟨.raised (.apiError 500 ("boom".take 500)), [10, 20, 40, 80], 5⟩ ∧
    jira_post c2WJira = ⟨.raised (.apiError 500 ("boom".take 500)), [10, 20, 40, 80], 5⟩ ∧
    confluence_get c2WJira = ⟨.raised (.apiError 500 ("boom".take 500)), [10, 20, 40, 80], 5⟩ ∧
    gh c2WGh = ⟨.warnedEmpty, 0, 1⟩ :=
  ⟨C2_exponential_backoff_amended.1 Unit c2WJira 500 (fun _ => none) (fun _ => "boom")
      (fun _ _ _ => rfl) (by decide) (by decide) (by decide) (by decide),
   C2_exponential_backoff_amended.2.1 Unit c2WJira 500 (fun _ => none) (fun _ => "boom")
      (fun _ _ _ => rfl) (by decide) (by decide) (by decide) (by decide),
   C2_exponential_backoff_amended.2.2.1 Unit c2WJira 500 (fun _ => none) (fun _ => "boom")
      (fun _ _ _ => rfl) (by decide) (by decide) (by decide) (by decide),
   C2_exponential_backoff_amended.2.2.2 Unit c2WGh "fatal: not a git repository" rfl (by decide)⟩

/-! ## Claim C3 — HTTP 401 fails immediately -/

/-- C3: a request answered HTTP 401 makes `jira_get`, `jira_post` and
`confluence_get` raise the fatal credentials `RuntimeError` at once:
exactly one request issued, zero sleeps, the request never reissued. -/
theorem C3_auth_401_fails_immediately :
    (∀ (α : Type) (resps : Nat → HttpResp α) (ra : Option Nat) (body : String),
        resps 1 = .httpErr 401 ra body →
        jira_get resps = ⟨.raised .authFailed, [], 1⟩) ∧
    (∀ (α : Type) (resps : Nat → HttpResp α) (ra : Option Nat) (body : String),
        resps 1 = .httpErr 401 ra body →
        jira_post resps = ⟨.raised .authFailed, [], 1⟩) ∧
    (∀ (α : Type) (resps : Nat → HttpResp α) (ra : Option Nat) (body : String),
        resps 1 = .httpErr 401 ra body →
        confluence_get resps = ⟨.raised .authFailed, [], 1⟩) := by
  refine ⟨?_, ?_, ?_⟩
  · intro α resps ra body h
    have e : jira_get resps = jiraRetryAux resps 1 (4 + 1) := rfl
    rw [e]
    exact jiraRetryAux_401 h 4
  · intro α resps ra body h
    have e : jira_post resps = jiraRetryAux resps 1 (4 + 1) := rfl
    rw [e]
    exact jiraRetryAux_401 h 4
  · intro α resps ra body h
    have e : confluence_get resps = confluenceRetryAux resps 1 (4 + 1) := rfl
    rw [e]
    exact confluenceRetryAux_401 h 4

/-- Concrete response schedule for the C3 witness. -/
def c3W : Nat → HttpResp Unit := fun _ => .httpErr 401 none "bad credentials"

theorem C3_auth_401_fails_immediately_witness :
    jira_get c3W = ⟨.raised .authFailed, [], 1⟩ ∧
    jira_post c3W = ⟨.raised .authFailed, [], 1⟩ ∧
    confluence_get c3W = ⟨.raised .authFailed, [], 1⟩ :=
  ⟨C3_auth_401_fails_immediately.1 Unit c3W none "bad credentials" rfl,
   C3_auth_401_fails_immediately.2.1 Unit c3W none "bad credentials" rfl,
   C3_auth_401_fails_immediately.2.2 Unit c3W none "bad credentials" rfl⟩

/-! ## Claim C4 — HTTP 429 with Retry-After: 5 -/

/-- C4: a request answered HTTP 429 with `Retry-After: 5` makes
`jira_get` and `confluence_get` sleep exactly the hinted 5 seconds
(hence at least 5) and then reissue the request — at least two attempts
are made, with the identical request descriptor, which the loop builds
once before retrying. -/
theorem C4_retry_after_429_sleep_and_reattempt :
    (∀ (α : Type) (resps : Nat → HttpResp α) (body : String),
        resps 1 = .httpErr 429 (some 5) body →
        (jira_get resps).sleeps.head? = some 5 ∧ 2 ≤ (jira_get resps).requests) ∧
    (∀ (α : Type) (resps : Nat → HttpResp α) (body : String),
        resps 1 = .httpErr 429 (some 5) body →
        (confluence_get resps).sleeps.head? = some 5 ∧ 2 ≤ (confluence_get resps).requests) := by
  constructor
  · intro α resps body h
    have e : jira_get resps = jiraRetryAux resps 1 (4 + 1) := rfl
    rw [e, jiraRetryAux_429 h 4]
    refine ⟨rfl, ?_⟩
    have hr : 1 ≤ (jiraRetryAux resps (1 + 1) 4).requests :=
      jiraRetryAux_requests_pos resps (1 + 1) 3
    show 2 ≤ (jiraRetryAux resps (1 + 1) 4).requests + 1
    omega
  · intro α resps body h
    have e : confluence_get resps = confluenceRetryAux resps 1 (4 + 1) := rfl
    rw [e, confluenceRetryAux_429 h 4]
    refine ⟨rfl, ?_⟩
    have hr : 1 ≤ (confluenceRetryAux resps (1 + 1) 4).requests :=
      confluenceRetryAux_requests_pos resps (1 + 1) 3
    show 2 ≤ (confluenceRetryAux resps (1 + 1) 4).requests + 1
    omega

/-- Concrete response schedule for the C4 witness: 429 with Retry-After 5,
then success. -/
def c4W : Nat → HttpResp Unit := fun i =>
  if i = 1 then .httpErr 429 (some 5) "rate limited" else .ok ()

theorem C4_retry_after_429_sleep_and_reattempt_witness :
    ((jira_get c4W).sleeps.head? = some 5 ∧ 2 ≤ (jira_get c4W).requests) ∧
    ((confluence_get c4W).sleeps.head? = some 5 ∧ 2 ≤ (confluence_get c4W).requests) :=
  ⟨C4_retry_after_429_sleep_and_reattempt.1 Unit c4W "rate limited" rfl,
   C4_retry_after_429_sleep_and_reattempt.2 Unit c4W "rate limited" rfl⟩

/-! ## `fetch_pages` step lemmas -/

theorem fetchPagesAux_short {α : Type} {srv : Nat → List α} {limit start : Nat}
    (h : (srv start).length < limit) (fuel : Nat) :
    fetchPagesAux srv limit start (fuel + 1) = some (srv start, [start]) := by
  conv_lhs => unfold fetchPagesAux
  simp only [if_pos h]

theorem fetchPagesAux_full {α : Type} {srv : Nat → List α} {limit start : Nat}
    (h : ¬(srv start).length < limit) (fuel : Nat) :
    fetchPagesAux srv limit start (fuel + 1) =
      match fetchPagesAux srv limit (start + (srv start).length) fuel with
      | none => none
      | some (recs, offs) => some (srv start ++ recs, start :: offs) := by
  conv_lhs => unfold fetchPagesAux
  simp only [if_neg h]

theorem fetchPagesAux_offs_ne_nil {α : Type} {srv : Nat → List α} {limit start fuel : Nat}
    {recs : List α} {offs : List Nat}
    (h : fetchPagesAux srv limit start fuel = some (recs, offs)) : offs ≠ [] := by
  match fuel with
  | 0 => simp [fetchPagesAux] at h
  | f + 1 =>
    by_cases hs : (srv start).length < limit
    · rw [fetchPagesAux_short hs f] at h
      simp at h
      obtain ⟨-, h2⟩ := h
      simp [← h2]
    · rw [fetchPagesAux_full hs f] at h
      rcases he : fetchPagesAux srv limit (start + (srv start).length) f with - | ⟨recs', offs'⟩ <;>
        rw [he] at h
      · simp at h
      · simp at h
        obtain ⟨-, h2⟩ := h
        simp [← h2]

/-- Every record of every retrieved page appears in the accumulated
result, in server order, and the loop stops only at a short page: the
offsets visited determine the output exactly. -/
theorem fetchPagesAux_complete {α : Type} {srv : Nat → List α} {limit : Nat} :
    ∀ (fuel : Nat) {start : Nat} {recs : List α} {offs : List Nat},
      fetchPagesAux srv limit start fuel = some (recs, offs) →
      recs = (offs.map srv).flatten ∧
        ∃ l, offs.getLast? = some l ∧ (srv l).length < limit := by
  intro fuel
  induction fuel with
  | zero => intro start recs offs h; simp [fetchPagesAux] at h
  | succ f ih =>
    intro start recs offs h
    by_cases hs : (srv start).length < limit
    · rw [fetchPagesAux_short hs f] at h
      simp at h
      obtain ⟨h1, h2⟩ := h
      subst h1
      rw [← h2]
      exact ⟨by simp, start, rfl, hs⟩
    · rw [fetchPagesAux_full hs f] at h
      rcases he : fetchPagesAux srv limit (start + (srv start).length) f with - | ⟨recs', offs'⟩ <;>
        rw [he] at h
      · simp at h
      · simp at h
        obtain ⟨h1, h2⟩ := h
        obtain ⟨ihr, l, ihl, ihshort⟩ := ih he
        subst h1
        rw [← h2]
        refine ⟨by simp [ihr], l, ?_, ihshort⟩
        rcases offs' with - | ⟨x, xs⟩
        · simp at ihl
        · rw [List.getLast?_cons_cons]
          exact ihl

/-! ## Claim C5 — offset pagination over pages of sizes [50, 50, 50, k] -/

/-- C5: when the server holds pages of sizes 50, 50, 50 and k < 50 at
offsets 0, 50, 100, 150, `fetch_pages` issues exactly the four requests
with those offsets and returns the 3·50+k records in server order; and
in general an iteration of the loop is the last one exactly when its
page carries fewer than `_PAGE_LIMIT = 50` records. -/
theorem C5_offset_mode_four_pages :
    (∀ (α : Type) (srv : Nat → List α) (p1 p2 p3 p4 : List α) (fuel : Nat),
        srv 0 = p1 → srv 50 = p2 → srv 100 = p3 → srv 150 = p4 →
        p1.length = 50 → p2.length = 50 → p3.length = 50 → p4.length < 50 →
        4 ≤ fuel →
        fetch_pages srv fuel = some (p1 ++ (p2 ++ (p3 ++ p4)), [0, 50, 100, 150]) ∧
        (p1 ++ (p2 ++ (p3 ++ p4))).length = 3 * 50 + p4.length) ∧
    (∀ (α : Type) (srv : Nat → List α) (start fuel : Nat),
        (fetchPagesAux srv PAGE_LIMIT start (fuel + 1)).map Prod.snd = some [start] ↔
          (srv start).length < 50) := by
  constructor
  · intro α srv p1 p2 p3 p4 fuel hs1 hs2 hs3 hs4 hl1 hl2 hl3 hl4 hfuel
    obtain ⟨f, rfl⟩ : ∃ f, fuel = f + 4 := ⟨fuel - 4, by omega⟩
    have t4 : fetchPagesAux srv 50 150 (f + 1) = some (p4, [150]) := by
      rw [fetchPagesAux_short (by rw [hs4]; omega) f, hs4]
    have t3 : fetchPagesAux srv 50 100 (f + 2) = some (p3 ++ p4, [100, 150]) := by
      have e : fetchPagesAux srv 50 100 (f + 2) = fetchPagesAux srv 50 100 (f + 1 + 1) := rfl
      rw [e, fetchPagesAux_full (by rw [hs3, hl3]; omega) (f + 1), hs3, hl3]
      norm_num
      rw [t4]
    have t2 : fetchPagesAux srv 50 50 (f + 3) = some (p2 ++ (p3 ++ p4), [50, 100, 150]) := by
      have e : fetchPagesAux srv 50 50 (f + 3) = fetchPagesAux srv 50 50 (f + 2 + 1) := rfl
      rw [e, fetchPagesAux_full (by rw [hs2, hl2]; omega) (f + 2), hs2, hl2]
      norm_num
      rw [t3]
    have t1 : fetchPagesAux srv 50 0 (f + 4) = some (p1 ++ (p2 ++ (p3 ++ p4)), [0, 50, 100, 150]) := by
      have e : fetchPagesAux srv 50 0 (f + 4) = fetchPagesAux srv 50 0 (f + 3 + 1) := rfl
      rw [e, fetchPagesAux_full (by rw [hs1, hl1]; omega) (f + 3), hs1, hl1]
      norm_num
      rw [t2]
    refine ⟨t1, ?_⟩
    simp only [List.length_append, hl1, hl2, hl3]
    omega
  · intro α srv start fuel
    rw [show PAGE_LIMIT = 50 from rfl]
    constructor
    · intro h
      by_cases hs : (srv start).length < 50
      · exact hs
      · exfalso
        rw [fetchPagesAux_full hs fuel] at h
        rcases he : fetchPagesAux srv 50 (start + (srv start).length) fuel with - | ⟨recs', offs'⟩ <;>
          rw [he] at h
        · simp at h
        · simp at h
          exact fetchPagesAux_offs_ne_nil he h
    · intro hs
      rw [fetchPagesAux_short hs fuel]
      rfl

/-- Concrete server for the C5 witness: three full pages of 50 zeros and
a final page of 2 ones. -/
def c5W : Nat → List Nat := fun s =>
  if s = 0 ∨ s = 50 ∨ s = 100 then List.replicate 50 0
  else if s = 150 then [1, 1] else []

theorem C5_offset_mode_four_pages_witness :
    fetch_pages c5W 4 =
      some (List.replicate 50 0 ++ (List.replicate 50 0 ++ (List.replicate 50 0 ++ [1, 1])),
        [0, 50, 100, 150]) ∧
    (List.replicate 50 0 ++ (List.replicate 50 0 ++ (List.replicate 50 0 ++ [1, 1]))).length =
      3 * 50 + 2 :=
  have h := C5_offset_mode_four_pages.1 Nat c5W (List.replicate 50 0) (List.replicate 50 0)
    (List.replicate 50 0) [1, 1] 4 (by decide) (by decide) (by decide) (by decide)
    (by simp) (by simp) (by simp) (by decide) (by decide)
  ⟨h.1, h.2⟩

/-! ## Honest-server lemma for offset mode -/

/-- Against a server that truthfully pages a fixed record list `L` with
page size `P > 0` (`start ↦ L[start : start+P]`), the offset loop
accumulates exactly the suffix of `L` from `start`. -/
theorem fetchPagesAux_honest {α : Type} (L : List α) (P : Nat) (hP : 0 < P) :
    ∀ (fuel : Nat) (start : Nat), L.length - start < fuel →
      (fetchPagesAux (fun s => (L.drop s).take P) P start fuel).map Prod.fst =
        some (L.drop start) := by
  intro fuel
  induction fuel with
  | zero => intro start h; omega
  | succ f ih =>
    intro start h
    have hlen : ((L.drop start).take P).length = min P (L.length - start) := by
      simp [List.length_take, List.length_drop]
    by_cases hshort : L.length - start < P
    · have hc : (((fun s => (L.drop s).take P) start).length < P) := by
        rw [hlen]
        omega
      rw [fetchPagesAux_short hc f]
      simp only [Option.map_some', Option.some_inj]
      exact List.take_of_length_le (by rw [List.length_drop]; omega)
    · have hc : ¬(((fun s => (L.drop s).take P) start).length < P) := by
        rw [hlen]
        omega
      rw [fetchPagesAux_full hc f]
      have hlen2 : (((fun s => (L.drop s).take P) start).length) = P := by
        rw [hlen]
        omega
      rw [hlen2]
      have ihh := ih (start + P) (by omega)
      rcases he : fetchPagesAux (fun s => (L.drop s).take P) P (start + P) f with - | ⟨recs', offs'⟩
      · rw [he] at ihh
        simp at ihh
      · rw [he] at ihh
        simp only [Option.map_some', Option.some_inj] at ihh
        simp only [Option.map_some', Option.some_inj]
        rw [ihh]
        have e2 : L.drop (start + P) = (L.drop start).drop P := by
          rw [List.drop_drop, Nat.add_comm]
        rw [e2, List.take_append_drop]

/-! ## Folding lemmas for the sprint loop -/

theorem processIssue_tickets (sp : List String) (acc : SprintAcc) (iss : Issue) :
    (processIssue sp acc iss).total_tickets = acc.total_tickets := by
  unfold processIssue
  cases firstSp sp iss <;> rfl

theorem foldl_processIssue_tickets (sp : List String) :
    ∀ (l : List Issue) (acc : SprintAcc),
      (l.foldl (processIssue sp) acc).total_tickets = acc.total_tickets := by
  intro l
  induction l with
  | nil => intro acc; rfl
  | cons i t ih =>
    intro acc
    rw [List.foldl_cons, ih, processIssue_tickets]

theorem processIssue_set_tickets (sp : List String) (acc : SprintAcc) (t : Nat) (iss : Issue) :
    processIssue sp { acc with total_tickets := t } iss =
      { processIssue sp acc iss with total_tickets := t } := by
  unfold processIssue
  cases firstSp sp iss <;> rfl

theorem foldl_processIssue_set_tickets (sp : List String) :
    ∀ (l : List Issue) (acc : SprintAcc) (t : Nat),
      l.foldl (processIssue sp) { acc with total_tickets := t } =
        { l.foldl (processIssue sp) acc with total_tickets := t } := by
  intro l
  induction l with
  | nil => intro acc t; rfl
  | cons i tl ih =>
    intro acc t
    rw [List.foldl_cons, processIssue_set_tickets, ih, List.foldl_cons]

/-- Processing two pages in sequence is processing their concatenation. -/
theorem stepPage_append (sp : List String) (acc : SprintAcc) (c d : List Issue) :
    stepPage sp (stepPage sp acc c) d = stepPage sp acc (c ++ d) := by
  unfold stepPage
  simp only [List.foldl_append, List.length_append]
  rw [foldl_processIssue_set_tickets]
  simp only [foldl_processIssue_tickets]
  congr 1
  omega

/-- Page-by-page processing of a chunking is processing the flat list. -/
theorem foldl_stepPage_flatten (sp : List String) :
    ∀ (chunks : List (List Issue)) (acc : SprintAcc),
      chunks.foldl (stepPage sp) acc = stepPage sp acc chunks.flatten := by
  intro chunks
  induction chunks with
  | nil =>
    intro acc
    show acc = stepPage sp acc []
    unfold stepPage
    simp
  | cons c t ih =>
    intro acc
    rw [List.foldl_cons, ih, stepPage_append, List.flatten_cons]

/-- Running the sprint pagination loop over any well-formed chunking of
the server's issues (non-empty pages, a truthy token on every page but
the last, no token on the last) consumes every page and accumulates the
flattened issue list. -/
theorem fetchSprintAux_pagesOf (sp : List String) :
    ∀ (chunks : List (List Issue)) (acc : SprintAcc), chunks ≠ [] → (∀ c ∈ chunks, c ≠ []) →
      fetchSprintAux sp (pagesOf chunks) acc =
        some (stepPage sp acc chunks.flatten, chunks.length)
  | [], _, h, _ => absurd rfl h
  | [c], acc, _, hne => by
    show fetchSprintAux sp [⟨c, none⟩] acc = _
    unfold fetchSprintAux
    simp [stepPage_append, tokenTruthy]
  | c :: c2 :: t, acc, _, hne => by
    show fetchSprintAux sp (⟨c, some "next"⟩ :: pagesOf (c2 :: t)) acc = _
    have hc : c ≠ [] := hne c (by simp)
    have hcE : c.isEmpty = false := by
      cases c
      · exact absurd rfl hc
      · rfl
    have ih := fetchSprintAux_pagesOf sp (c2 :: t) (stepPage sp acc c) (by simp)
      (fun x hx => hne x (by simp [hx]))
    unfold fetchSprintAux
    simp only [hcE, show tokenTruthy (some "next") = true from rfl, Bool.not_true,
      Bool.or_false, Bool.false_or, Bool.false_eq_true, if_false]
    rw [ih]
    simp only [Option.map_some', Option.some_inj, Prod.mk.injEq, List.flatten_cons,
      List.length_cons]
    exact ⟨stepPage_append sp acc c (c2 :: t).flatten, trivial⟩

/-! ## Claim C7 — result sets are independent of the pagination split -/

/-- C7: the embedded fetches are pure functions of the server data (so
re-running one is trivially identical), and the page size never changes
the result set: an honest offset server holding the fixed record list
`L` yields exactly `L` for every page size `P > 0` — in particular for
the source's `_PAGE_LIMIT = 50` — and the token loop yields the same
aggregate for any two well-formed chunkings of the same issue list. -/
theorem C7_result_independent_of_page_size :
    (∀ (α : Type) (L : List α) (P1 P2 f1 f2 : Nat),
        0 < P1 → 0 < P2 → L.length < f1 → L.length < f2 →
        (fetchPagesAux (fun s => (L.drop s).take P1) P1 0 f1).map Prod.fst =
          (fetchPagesAux (fun s => (L.drop s).take P2) P2 0 f2).map Prod.fst ∧
        (fetchPagesAux (fun s => (L.drop s).take P1) P1 0 f1).map Prod.fst = some L) ∧
    (∀ (α : Type) (L : List α) (fuel : Nat), L.length < fuel →
        (fetch_pages (fun s => (L.drop s).take 50) fuel).map Prod.fst = some L) ∧
    (∀ (spFields : List String) (L : List Issue) (chunks1 chunks2 : List (List Issue)),
        chunks1 ≠ [] → chunks2 ≠ [] →
        (∀ c ∈ chunks1, c ≠ []) → (∀ c ∈ chunks2, c ≠ []) →
        chunks1.flatten = L → chunks2.flatten = L →
        (fetch_sprint_total spFields (pagesOf chunks1)).map Prod.fst =
          (fetch_sprint_total spFields (pagesOf chunks2)).map Prod.fst ∧
        (fetch_sprint_total spFields (pagesOf chunks1)).map Prod.fst =
          some (aggregateIssues spFields L)) := by
  refine ⟨?_, ?_, ?_⟩
  · intro α L P1 P2 f1 f2 hP1 hP2 hf1 hf2
    have h1 := fetchPagesAux_honest L P1 hP1 f1 0 (by omega)
    have h2 := fetchPagesAux_honest L P2 hP2 f2 0 (by omega)
    rw [List.drop_zero] at h1 h2
    exact ⟨h1.trans h2.symm, h1⟩
  · intro α L fuel hf
    have h1 := fetchPagesAux_honest L 50 (by omega) fuel 0 (by omega)
    rw [List.drop_zero] at h1
    exact h1
  · intro spFields L chunks1 chunks2 hne1 hne2 hc1 hc2 hfl1 hfl2
    have e1 : fetch_sprint_total spFields (pagesOf chunks1) =
        (fetchSprintAux spFields (pagesOf chunks1) ⟨0, 0, 0⟩).map
          fun p => (finalizeSprint p.1, p.2) := rfl
    have e2 : fetch_sprint_total spFields (pagesOf chunks2) =
        (fetchSprintAux spFields (pagesOf chunks2) ⟨0, 0, 0⟩).map
          fun p => (finalizeSprint p.1, p.2) := rfl
    rw [e1, e2, fetchSprintAux_pagesOf spFields chunks1 ⟨0, 0, 0⟩ hne1 hc1,
      fetchSprintAux_pagesOf spFields chunks2 ⟨0, 0, 0⟩ hne2 hc2, hfl1, hfl2]
    exact ⟨rfl, rfl⟩

/-- Issues for the C7/C8 witnesses: one with story points in the primary
field, one with all candidate fields null. -/
def c7I1 : Issue := ⟨[("customfield_10016", some 5)]⟩

def c7I2 : Issue := ⟨[("customfield_10016", none)]⟩

theorem C7_result_independent_of_page_size_witness :
    ((fetchPagesAux (fun s => (([10, 20, 30] : List Nat).drop s).take 2) 2 0 4).map Prod.fst =
        (fetchPagesAux (fun s => (([10, 20, 30] : List Nat).drop s).take 3) 3 0 4).map Prod.fst ∧
      (fetchPagesAux (fun s => (([10, 20, 30] : List Nat).drop s).take 2) 2 0 4).map Prod.fst =
        some [10, 20, 30]) ∧
    (fetch_pages (fun s => (([7] : List Nat).drop s).take 50) 2).map Prod.fst = some [7] ∧
    ((fetch_sprint_total ["customfield_10016"] (pagesOf [[c7I1], [c7I2]])).map Prod.fst =
        (fetch_sprint_total ["customfield_10016"] (pagesOf [[c7I1, c7I2]])).map Prod.fst ∧
      (fetch_sprint_total ["customfield_10016"] (pagesOf [[c7I1], [c7I2]])).map Prod.fst =
        some (aggregateIssues ["customfield_10016"] [c7I1, c7I2])) :=
  ⟨C7_result_independent_of_page_size.1 Nat [10, 20, 30] 2 3 4 4 (by omega) (by omega)
      (by simp) (by simp),
   C7_result_independent_of_page_size.2.1 Nat [7] 2 (by simp),
   C7_result_independent_of_page_size.2.2 ["customfield_10016"] [c7I1, c7I2]
      [[c7I1], [c7I2]] [[c7I1, c7I2]] (by simp) (by simp)
      (by intro c hc; simp at hc; rcases hc with h | h <;> simp [h])
      (by intro c hc; simp at hc; simp [hc])
      (by simp) (by simp)⟩

/-! ## Claim C6 — token pagination over three pages -/

theorem fetchSprintAux_stop {sp : List String} {pg : SearchPage} {rest : List SearchPage}
    {acc : SprintAcc} (h : (pg.issues.isEmpty || !tokenTruthy pg.nextPageToken) = true) :
    fetchSprintAux sp (pg :: rest) acc = some (stepPage sp acc pg.issues, 1) := by
  conv_lhs => unfold fetchSprintAux
  simp only [h, if_true]

theorem fetchSprintAux_cont {sp : List String} {pg : SearchPage} {rest : List SearchPage}
    {acc : SprintAcc} (h : (pg.issues.isEmpty || !tokenTruthy pg.nextPageToken) = false) :
    fetchSprintAux sp (pg :: rest) acc =
      (fetchSprintAux sp rest (stepPage sp acc pg.issues)).map fun p => (p.1, p.2 + 1) := by
  conv_lhs => unfold fetchSprintAux
  simp only [h, Bool.false_eq_true, if_false]

theorem fetchSprintAux_requests_pos {sp : List String} :
    ∀ {pages : List SearchPage} {acc : SprintAcc} {a : SprintAcc} {n : Nat},
      fetchSprintAux sp pages acc = some (a, n) → 1 ≤ n := by
  intro pages acc a n h
  match pages with
  | [] => simp [fetchSprintAux] at h
  | pg :: rest =>
    by_cases hc : (pg.issues.isEmpty || !tokenTruthy pg.nextPageToken) = true
    · rw [fetchSprintAux_stop hc] at h
      simp at h
      omega
    · rw [fetchSprintAux_cont (by revert hc; cases (pg.issues.isEmpty || !tokenTruthy pg.nextPageToken) <;> simp)] at h
      rcases he : fetchSprintAux sp rest (stepPage sp acc pg.issues) with - | ⟨a', n'⟩ <;>
        rw [he] at h
      · simp at h
      · simp at h
        omega

/-- C6: when the server hands back a (truthy) continuation token on the
first two pages, each of which carries at least one issue, and no token
on the third, `fetch_sprint_total` issues exactly 3 requests and
aggregates over the concatenation of the issues of all three pages; and
in general an iteration of the pagination loop is the last one exactly
when its page has no items or no (truthy) next-page token. -/
theorem C6_token_mode_three_pages :
    (∀ (spFields : List String) (pg1 pg2 pg3 : SearchPage) (rest : List SearchPage),
        pg1.issues ≠ [] → pg2.issues ≠ [] →
        tokenTruthy pg1.nextPageToken = true → tokenTruthy pg2.nextPageToken = true →
        tokenTruthy pg3.nextPageToken = false →
        fetch_sprint_total spFields (pg1 :: pg2 :: pg3 :: rest) =
          some (aggregateIssues spFields (pg1.issues ++ (pg2.issues ++ pg3.issues)), 3)) ∧
    (∀ (spFields : List String) (pg : SearchPage) (rest : List SearchPage),
        (fetchSprintAux spFields (pg :: rest) ⟨0, 0, 0⟩).map Prod.snd = some 1 ↔
          (pg.issues = [] ∨ tokenTruthy pg.nextPageToken = false)) := by
  constructor
  · intro spFields pg1 pg2 pg3 rest hne1 hne2 ht1 ht2 ht3
    have hE1 : pg1.issues.isEmpty = false := by
      cases he : pg1.issues
      · exact absurd he hne1
      · rfl
    have hE2 : pg2.issues.isEmpty = false := by
      cases he : pg2.issues
      · exact absurd he hne2
      · rfl
    have c1 : (pg1.issues.isEmpty || !tokenTruthy pg1.nextPageToken) = false := by
      rw [hE1, ht1]; rfl
    have c2 : (pg2.issues.isEmpty || !tokenTruthy pg2.nextPageToken) = false := by
      rw [hE2, ht2]; rfl
    have c3 : (pg3.issues.isEmpty || !tokenTruthy pg3.nextPageToken) = true := by
      rw [ht3]; simp
    have e : fetch_sprint_total spFields (pg1 :: pg2 :: pg3 :: rest) =
        (fetchSprintAux spFields (pg1 :: pg2 :: pg3 :: rest) ⟨0, 0, 0⟩).map
          fun p => (finalizeSprint p.1, p.2) := rfl
    rw [e, fetchSprintAux_cont c1, fetchSprintAux_cont c2, fetchSprintAux_stop c3]
    simp only [Option.map_some', Option.some_inj, Prod.mk.injEq]
    rw [stepPage_append, stepPage_append]
    exact ⟨rfl, trivial⟩
  · intro spFields pg rest
    constructor
    · intro h
      by_cases hc : (pg.issues.isEmpty || !tokenTruthy pg.nextPageToken) = true
      · rcases Bool.or_eq_true_iff.mp hc with he | ht
        · left
          exact List.isEmpty_iff.mp he
        · right
          revert ht
          cases tokenTruthy pg.nextPageToken <;> simp
      · exfalso
        have hc' : (pg.issues.isEmpty || !tokenTruthy pg.nextPageToken) = false := by
          revert hc
          cases (pg.issues.isEmpty || !tokenTruthy pg.nextPageToken) <;> simp
        rw [fetchSprintAux_cont hc'] at h
        rcases he : fetchSprintAux spFields rest (stepPage spFields ⟨0, 0, 0⟩ pg.issues) with - | ⟨a', n'⟩ <;>
          rw [he] at h
        · simp at h
        · simp at h
          have := fetchSprintAux_requests_pos he
          omega
    · intro h
      have hc : (pg.issues.isEmpty || !tokenTruthy pg.nextPageToken) = true := by
        rcases h with he | ht
        · rw [List.isEmpty_iff.mpr he]
          simp
        · rw [ht]
          simp
      rw [fetchSprintAux_stop hc]
      rfl

/-- Pages for the C6 witness. -/
def c6P1 : SearchPage := ⟨[c7I1], some "tokA"⟩

def c6P2 : SearchPage := ⟨[c7I2], some "tokB"⟩

def c6P3 : SearchPage := ⟨[c7I1, c7I1], none⟩

theorem C6_token_mode_three_pages_witness :
    fetch_sprint_total ["customfield_10016"] [c6P1, c6P2, c6P3] =
      some (aggregateIssues ["customfield_10016"]
        (c6P1.issues ++ (c6P2.issues ++ c6P3.issues)), 3) ∧
    ((fetchSprintAux ["customfield_10016"] [c6P3] ⟨0, 0, 0⟩).map Prod.snd = some 1 ↔
      (c6P3.issues = [] ∨ tokenTruthy c6P3.nextPageToken = false)) :=
  ⟨C6_token_mode_three_pages.1 ["customfield_10016"] c6P1 c6P2 c6P3 []
      (by simp [c6P1]) (by simp [c6P2]) rfl rfl rfl,
   C6_token_mode_three_pages.2 ["customfield_10016"] c6P3 []⟩

/-! ## Claim C8 — tickets without story points -/

/-- Closed form of the issue loop: tickets never change, the story-point
total gains the first non-null candidate value of each issue (0 for
issues with none), and the null counter gains one per issue with no
non-null candidate. -/
theorem foldl_processIssue_closed (sp : List String) :
    ∀ (l : List Issue) (acc : SprintAcc),
      l.foldl (processIssue sp) acc =
        ⟨acc.total_tickets,
         acc.total_sp + (l.map fun i => (firstSp sp i).getD 0).sum,
         acc.null_sp_count + (l.countP fun i => (firstSp sp i).isNone)⟩ := by
  intro l
  induction l with
  | nil =>
    intro acc
    simp
  | cons i t ih =>
    intro acc
    rw [List.foldl_cons, ih]
    rcases hsp : firstSp sp i with - | v
    · have hpi : processIssue sp acc i = { acc with null_sp_count := acc.null_sp_count + 1 } := by
        unfold processIssue
        rw [hsp]
      rw [hpi]
      simp only [List.map_cons, List.sum_cons, hsp, Option.getD_none, List.countP_cons,
        Option.isNone_none, if_true, SprintAcc.mk.injEq]
      refine ⟨trivial, by rw [zero_add], by omega⟩
    · have hpi : processIssue sp acc i = { acc with total_sp := acc.total_sp + v } := by
        unfold processIssue
        rw [hsp]
      rw [hpi]
      simp only [List.map_cons, List.sum_cons, hsp, Option.getD_some, List.countP_cons,
        Option.isNone_some, SprintAcc.mk.injEq]
      refine ⟨trivial, by ring, by simp⟩

/-- C8: over a single (final) page, no ticket makes the fetch fail:
every ticket is counted in `total_tickets`; a ticket whose candidate
story-point fields are all null or absent contributes 0 to the total and
exactly 1 to `_null_sp_count`; and the value a ticket contributes is the
first non-null value among `sp_fields` in order — characterised exactly
in the second conjunct. -/
theorem C8_null_story_points_tolerated :
    (∀ (spFields : List String) (issues : List Issue),
        fetch_sprint_total spFields [⟨issues, none⟩] =
          some (⟨issues.length,
                 pyRound1 ((issues.map fun i => (firstSp spFields i).getD 0).sum),
                 issues.countP fun i => (firstSp spFields i).isNone⟩, 1)) ∧
    (∀ (spFields : List String) (iss : Issue) (v : ℚ),
        firstSp spFields iss = some v ↔
          ∃ (n : Nat) (f : String), spFields[n]? = some f ∧ getField iss f = some v ∧
            ∀ m, m < n → ∀ g, spFields[m]? = some g → getField iss g = none) := by
  constructor
  · intro spFields issues
    have hc : (((⟨issues, none⟩ : SearchPage).issues.isEmpty ||
        !tokenTruthy (⟨issues, none⟩ : SearchPage).nextPageToken) = true) := by
      simp [tokenTruthy]
    have e : fetch_sprint_total spFields [⟨issues, none⟩] =
        (fetchSprintAux spFields [⟨issues, none⟩] ⟨0, 0, 0⟩).map
          fun p => (finalizeSprint p.1, p.2) := rfl
    rw [e, fetchSprintAux_stop hc]
    simp only [Option.map_some', Option.some_inj, Prod.mk.injEq]
    refine ⟨?_, trivial⟩
    show finalizeSprint (stepPage spFields ⟨0, 0, 0⟩ issues) = _
    unfold stepPage
    rw [foldl_processIssue_closed]
    unfold finalizeSprint
    simp
  · intro spFields
    induction spFields with
    | nil =>
      intro iss v
      constructor
      · intro h
        simp [firstSp] at h
      · rintro ⟨n, f, hf, -, -⟩
        simp at hf
    | cons f rest ih =>
      intro iss v
      rcases hgf : getField iss f with - | w
      · have hfs : firstSp (f :: rest) iss = firstSp rest iss := by
          conv_lhs => unfold firstSp
          rw [hgf]
        rw [hfs, ih iss v]
        constructor
        · rintro ⟨n, g, hg, hv, hmin⟩
          refine ⟨n + 1, g, by simpa using hg, hv, ?_⟩
          intro m hm g' hg'
          match m, hg' with
          | 0, hg' =>
            simp at hg'
            rw [← hg']
            exact hgf
          | k + 1, hg' =>
            simp at hg'
            exact hmin k (by omega) g' hg'
        · rintro ⟨n, g, hg, hv, hmin⟩
          match n, hg with
          | 0, hg =>
            simp at hg
            rw [← hg] at hv
            rw [hgf] at hv
            exact absurd hv (by simp)
          | k + 1, hg =>
            simp at hg
            exact ⟨k, g, hg, hv, fun m hm g' hg' => hmin (m + 1) (by omega) g' (by simpa using hg')⟩
      · have hfs : firstSp (f :: rest) iss = some w := by
          conv_lhs => unfold firstSp
          rw [hgf]
        rw [hfs]
        constructor
        · intro h
          refine ⟨0, f, by simp, ?_, by omega⟩
          rw [hgf]
          exact h
        · rintro ⟨n, g, hg, hv, hmin⟩
          match n, hg with
          | 0, hg =>
            simp at hg
            rw [← hg] at hv
            rw [hgf] at hv
            exact hv
          | k + 1, hg =>
            have h0 := hmin 0 (by omega) f (by simp)
            rw [hgf] at h0
            exact absurd h0 (by simp)

theorem C8_null_story_points_tolerated_witness :
    fetch_sprint_total ["customfield_10016"] [⟨[c7I1, c7I2], none⟩] =
      some (⟨2, pyRound1 (([c7I1, c7I2].map fun i =>
          (firstSp ["customfield_10016"] i).getD 0).sum),
        [c7I1, c7I2].countP fun i => (firstSp ["customfield_10016"] i).isNone⟩, 1) ∧
    (firstSp ["customfield_10016"] c7I1 = some 5 ↔
      ∃ (n : Nat) (f : String), (["customfield_10016"] : List String)[n]? = some f ∧
        getField c7I1 f = some 5 ∧
        ∀ m, m < n → ∀ g, (["customfield_10016"] : List String)[m]? = some g →
          getField c7I1 g = none) :=
  ⟨C8_null_story_points_tolerated.1 ["customfield_10016"] [c7I1, c7I2],
   C8_null_story_points_tolerated.2 ["customfield_10016"] c7I1 5⟩

/-! ## Claim C9 — `fetch_prs_for_numbers` -/

theorem strLe_head_le {a b : Char} {as bs : List Char}
    (h : strLe (a :: as) (b :: bs) = true) : a.toNat ≤ b.toNat := by
  by_cases hab : a.toNat < b.toNat
  · omega
  by_cases hba : b.toNat < a.toNat
  · unfold strLe at h
    rw [if_neg hab, if_pos hba] at h
    exact absurd h (by simp)
  · omega

theorem strLe_tail {a b : Char} {as bs : List Char}
    (h : strLe (a :: as) (b :: bs) = true) (hab : ¬a.toNat < b.toNat) :
    strLe as bs = true := by
  have hba : ¬b.toNat < a.toNat := by
    have := strLe_head_le h
    omega
  unfold strLe at h
  rw [if_neg hab, if_neg hba] at h
  exact h

theorem strLe_total : ∀ (a b : List Char), (strLe a b || strLe b a) = true
  | [], _ => by simp [strLe]
  | _ :: _, [] => by simp [strLe]
  | a :: as, b :: bs => by
    by_cases h1 : a.toNat < b.toNat
    · unfold strLe
      rw [if_pos h1]
      simp
    by_cases h2 : b.toNat < a.toNat
    · conv_lhs => unfold strLe
      rw [if_neg h1, if_pos h2, if_pos h2]
      simp
    · conv_lhs => unfold strLe
      rw [if_neg h1, if_neg h2, if_neg h2, if_neg h1]
      exact strLe_total as bs

theorem strLe_trans : ∀ (a b c : List Char),
    strLe a b = true → strLe b c = true → strLe a c = true
  | [], _, _ => by intro _ _; simp [strLe]
  | _ :: _, [], _ => by intro h _; simp [strLe] at h
  | _ :: _, _ :: _, [] => by intro _ h; simp [strLe] at h
  | a :: as, b :: bs, c :: cs => by
    intro h1 h2
    have hab := strLe_head_le h1
    have hbc := strLe_head_le h2
    by_cases hac : a.toNat < c.toNat
    · unfold strLe
      rw [if_pos hac]
    · have hca : ¬c.toNat < a.toNat := by omega
      have hab' : ¬a.toNat < b.toNat := by omega
      have hbc' : ¬b.toNat < c.toNat := by omega
      unfold strLe
      rw [if_neg hac, if_neg hca]
      exact strLe_trans as bs cs (strLe_tail h1 hab') (strLe_tail h2 hbc')

theorem createdLe_total (a b : PRecord) : (createdLe a b || createdLe b a) = true :=
  strLe_total _ _

theorem createdLe_trans (a b c : PRecord) (h1 : createdLe a b = true) (h2 : createdLe b c = true) :
    createdLe a c = true :=
  strLe_trans _ _ _ h1 h2

theorem lookup_dictInsert (k : String × Nat) (v : PRecord) :
    ∀ (d : List ((String × Nat) × PRecord)) (p : String × Nat),
      List.lookup p (dictInsert k v d) = if p = k then some v else List.lookup p d
  | [], p => by
    by_cases h : p = k
    · subst h
      simp [dictInsert, List.lookup]
    · simp [dictInsert, List.lookup, h, beq_false_of_ne h]
  | (k', v') :: t, p => by
    by_cases hk : k' = k
    · subst hk
      rw [show dictInsert k' v ((k', v') :: t) = (k', v) :: t from by simp [dictInsert]]
      by_cases hp : p = k'
      · simp [List.lookup, hp]
      · simp [List.lookup, hp, beq_false_of_ne hp]
    · rw [show dictInsert k v ((k', v') :: t) = (k', v') :: dictInsert k v t from by
        simp [dictInsert, hk]]
      by_cases hp : p = k'
      · subst hp
        have hpk : ¬p = k := fun h => hk (h ▸ rfl)
        simp [List.lookup, if_neg hpk]
      · simp only [List.lookup, beq_false_of_ne hp]
        rw [lookup_dictInsert k v t p]

theorem mem_keys_dictInsert (k : String × Nat) (v : PRecord) :
    ∀ (d : List ((String × Nat) × PRecord)) (x : String × Nat),
      x ∈ (dictInsert k v d).map Prod.fst ↔ x ∈ d.map Prod.fst ∨ x = k
  | [], x => by simp [dictInsert]
  | (k', v') :: t, x => by
    by_cases hk : k' = k
    · subst hk
      rw [show dictInsert k' v ((k', v') :: t) = (k', v) :: t from by simp [dictInsert]]
      simp
      tauto
    · rw [show dictInsert k v ((k', v') :: t) = (k', v') :: dictInsert k v t from by
        simp [dictInsert, hk]]
      simp [mem_keys_dictInsert k v t x]
      tauto

theorem nodup_keys_dictInsert (k : String × Nat) (v : PRecord) :
    ∀ (d : List ((String × Nat) × PRecord)),
      (d.map Prod.fst).Nodup → ((dictInsert k v d).map Prod.fst).Nodup
  | [], _ => by simp [dictInsert]
  | (k', v') :: t, h => by
    rw [List.map_cons, List.nodup_cons] at h
    obtain ⟨hk't, ht⟩ := h
    by_cases hk : k' = k
    · subst hk
      rw [show dictInsert k' v ((k', v') :: t) = (k', v) :: t from by simp [dictInsert]]
      rw [List.map_cons, List.nodup_cons]
      exact ⟨hk't, ht⟩
    · rw [show dictInsert k v ((k', v') :: t) = (k', v') :: dictInsert k v t from by
        simp [dictInsert, hk]]
      rw [List.map_cons, List.nodup_cons]
      refine ⟨?_, nodup_keys_dictInsert k v t ht⟩
      intro hmem
      rcases (mem_keys_dictInsert k v t k').mp hmem with hin | heq
      · exact hk't hin
      · exact hk heq

theorem lookup_buildResults (fetchRes : Nat → Option PRecord) :
    ∀ (nums : List (String × Nat)) (i : Nat) (d : List ((String × Nat) × PRecord))
      (p : String × Nat),
      List.lookup p (buildResults fetchRes nums i d) =
        match lastSuccess fetchRes nums i p with
        | some v => some v
        | none => List.lookup p d
  | [], i, d, p => by simp [buildResults, lastSuccess]
  | q :: ps, i, d, p => by
    show List.lookup p (buildResults fetchRes ps (i + 1) _) = _
    rw [lookup_buildResults fetchRes ps (i + 1) _ p]
    show _ = match lastSuccess fetchRes (q :: ps) i p with
      | some v => some v
      | none => List.lookup p d
    have e : lastSuccess fetchRes (q :: ps) i p =
        match lastSuccess fetchRes ps (i + 1) p with
        | some v => some v
        | none => if q = p then fetchRes i else none := rfl
    rw [e]
    rcases lastSuccess fetchRes ps (i + 1) p with - | v
    · by_cases hqp : q = p
      · subst hqp
        rcases hf : fetchRes i with - | pr
        · simp
        · rw [lookup_dictInsert]
          simp
      · have hpq : ¬p = q := fun h => hqp h.symm
        rcases hf : fetchRes i with - | pr
        · simp [hqp]
        · rw [lookup_dictInsert]
          simp [hpq, hqp]
    · simp

theorem nodup_keys_buildResults (fetchRes : Nat → Option PRecord) :
    ∀ (nums : List (String × Nat)) (i : Nat) (d : List ((String × Nat) × PRecord)),
      (d.map Prod.fst).Nodup → ((buildResults fetchRes nums i d).map Prod.fst).Nodup
  | [], _, _, h => h
  | q :: ps, i, d, h => by
    show ((buildResults fetchRes ps (i + 1) _).map Prod.fst).Nodup
    rcases hf : fetchRes i with - | pr
    · simp only [hf]
      exact nodup_keys_buildResults fetchRes ps (i + 1) d h
    · simp only [hf]
      exact nodup_keys_buildResults fetchRes ps (i + 1) _ (nodup_keys_dictInsert q pr d h)

/-- C9: `fetch_prs_for_numbers` returns the values of an
insertion-ordered dict keyed by `(repo, number)` — so at most one record
per distinct pair, a later successful duplicate fetch replacing an
earlier one (`lastSuccess` is exactly the last non-`None` `fetch_pr`
outcome for the pair, and a pair all of whose fetches return `None` is
silently omitted) — sorted ascending by the `createdAt` field. -/
theorem C9_fetch_prs_dedup_sort :
    (∀ (fetchRes : Nat → Option PRecord) (numbers : List (String × Nat)),
        List.Pairwise (fun a b => createdLe a b = true)
          (fetch_prs_for_numbers fetchRes numbers)) ∧
    (∀ (fetchRes : Nat → Option PRecord) (numbers : List (String × Nat)),
        (fetch_prs_for_numbers fetchRes numbers).Perm
          ((buildResults fetchRes numbers 0 []).map Prod.snd)) ∧
    (∀ (fetchRes : Nat → Option PRecord) (numbers : List (String × Nat)),
        ((buildResults fetchRes numbers 0 []).map Prod.fst).Nodup) ∧
    (∀ (fetchRes : Nat → Option PRecord) (numbers : List (String × Nat)) (p : String × Nat),
        List.lookup p (buildResults fetchRes numbers 0 []) =
          lastSuccess fetchRes numbers 0 p) := by
  refine ⟨?_, ?_, ?_, ?_⟩
  · intro fetchRes numbers
    exact List.sorted_mergeSort (fun a b c => createdLe_trans a b c)
      (fun a b => createdLe_total a b) _
  · intro fetchRes numbers
    exact List.mergeSort_perm _ _
  · intro fetchRes numbers
    exact nodup_keys_buildResults fetchRes numbers 0 [] (by simp)
  · intro fetchRes numbers p
    rw [lookup_buildResults fetchRes numbers 0 [] p]
    rcases lastSuccess fetchRes numbers 0 p with - | v <;> rfl

/-! ## Claim C10 — `load_dotenv` -/

/-- One `.env` line never touches a key that already has a value: the
assignment is guarded by `key not in os.environ`. -/
theorem dotenvStep_preserves (env : Env) (l k : List Char) (h : (env k).isSome) :
    dotenvStep env l k = env k := by
  unfold dotenvStep
  split
  · rfl
  split
  · rfl
  split
  · rfl
  dsimp only
  split
  · rename_i hc
    by_cases hk : k = pyStrip ((pyStrip l).takeWhile fun c => !(c == '='))
    · exfalso
      rw [Bool.and_eq_true] at hc
      have hn := hc.2
      rw [← hk] at hn
      rw [Option.isNone_iff_eq_none] at hn
      rw [hn] at h
      simp at h
    · exact if_neg hk
  · rfl

theorem load_dotenv_lines_preserves :
    ∀ (lines : List (List Char)) (env : Env) (k : List Char),
      (env k).isSome → (lines.foldl dotenvStep env) k = env k := by
  intro lines
  induction lines with
  | nil => intro env k _; rfl
  | cons l ls ih =>
    intro env k h
    have hstep : dotenvStep env l k = env k := dotenvStep_preserves env l k h
    have hs : ((dotenvStep env l) k).isSome := by rw [hstep]; exact h
    calc (ls.foldl dotenvStep (dotenvStep env l)) k
        = (dotenvStep env l) k := ih (dotenvStep env l) k hs
      _ = env k := hstep

/-- C10: a key present in the environment before the call keeps its
value (shell environment takes precedence over `.env` entries); a key
whose value differs after the call must have been absent before — only
absent keys are inserted; and when the `.env` file does not exist
nothing changes at all. -/
theorem C10_load_dotenv_shell_precedence :
    (∀ (file : Option (List (List Char))) (env : Env) (k : List Char),
        (env k).isSome → load_dotenv file env k = env k) ∧
    (∀ (file : Option (List (List Char))) (env : Env) (k : List Char),
        load_dotenv file env k ≠ env k → env k = none) ∧
    (∀ (env : Env), load_dotenv none env = env) := by
  have h1 : ∀ (file : Option (List (List Char))) (env : Env) (k : List Char),
      (env k).isSome → load_dotenv file env k = env k := by
    intro file env k h
    rcases file with - | lines
    · rfl
    · exact load_dotenv_lines_preserves lines env k h
  refine ⟨h1, ?_, fun env => rfl⟩
  intro file env k hne
  by_contra habs
  exact hne (h1 file env k (Option.ne_none_iff_isSome.mp habs))

/-- Concrete data for the C10 witness: the shell already sets `A`, the
`.env` file tries to override it. -/
def c10Env : Env := fun k => if k = "A".toList then some "0".toList else none

def c10File : Option (List (List Char)) := some ["A=1".toList, "B=2".toList]

theorem C10_load_dotenv_shell_precedence_witness :
    load_dotenv c10File c10Env "A".toList = some "0".toList ∧
    load_dotenv none c10Env = c10Env :=
  ⟨(C10_load_dotenv_shell_precedence.1 c10File c10Env "A".toList (by decide)).trans (by decide),
   C10_load_dotenv_shell_precedence.2.2 c10Env⟩

/-! ## Claim C1 — complete results or a terminal error -/

theorem stopCond_iff (pg : SearchPage) :
    (pg.issues.isEmpty || !tokenTruthy pg.nextPageToken) = true ↔
      (pg.issues = [] ∨ tokenTruthy pg.nextPageToken = false) := by
  rw [Bool.or_eq_true_iff]
  constructor
  · rintro (he | ht)
    · exact Or.inl (List.isEmpty_iff.mp he)
    · right
      revert ht
      cases tokenTruthy pg.nextPageToken <;> simp
  · rintro (he | ht)
    · exact Or.inl (List.isEmpty_iff.mpr he)
    · right
      rw [ht]
      rfl

/-- The sprint pagination loop accumulates every issue of every page it
consumed, and the page it stopped at had no issues or no (truthy)
continuation token. -/
theorem fetchSprintAux_complete (sp : List String) :
    ∀ (pages : List SearchPage) (acc a : SprintAcc) (n : Nat),
      fetchSprintAux sp pages acc = some (a, n) →
      1 ≤ n ∧ n ≤ pages.length ∧
        a = stepPage sp acc (((pages.take n).map SearchPage.issues).flatten) ∧
        ∃ pg, pages[n - 1]? = some pg ∧
          (pg.issues = [] ∨ tokenTruthy pg.nextPageToken = false)
  | [], acc, a, n => by
    intro h
    simp [fetchSprintAux] at h
  | pg :: rest, acc, a, n => by
    intro h
    by_cases hc : (pg.issues.isEmpty || !tokenTruthy pg.nextPageToken) = true
    · rw [fetchSprintAux_stop hc] at h
      simp only [Option.some_inj, Prod.mk.injEq] at h
      obtain ⟨ha, hn⟩ := h
      subst ha
      refine ⟨by omega, by simp; omega, ?_, pg, ?_, (stopCond_iff pg).mp hc⟩
      · rw [← hn]
        simp
      · rw [← hn]
        simp
    · have hc' : (pg.issues.isEmpty || !tokenTruthy pg.nextPageToken) = false := by
        revert hc
        cases (pg.issues.isEmpty || !tokenTruthy pg.nextPageToken) <;> simp
      rw [fetchSprintAux_cont hc'] at h
      rcases he : fetchSprintAux sp rest (stepPage sp acc pg.issues) with - | ⟨a', n'⟩ <;>
        rw [he] at h
      · simp at h
      · simp only [Option.map_some', Option.some_inj, Prod.mk.injEq] at h
        obtain ⟨ha, hn⟩ := h
        obtain ⟨ih1, ih2, ih3, pg', ihl, ihstop⟩ :=
          fetchSprintAux_complete sp rest (stepPage sp acc pg.issues) a' n' he
        subst ha
        obtain ⟨m, rfl⟩ : ∃ m, n' = m + 1 := ⟨n' - 1, by omega⟩
        rw [← hn]
        refine ⟨by omega, by simp; omega, ?_, pg', ?_, ihstop⟩
        · rw [ih3, List.take_succ_cons, List.map_cons, List.flatten_cons, stepPage_append]
        · simpa using ihl
  termination_by pages => pages.length

/-- C1 (amended): a single page request either returns the server's
payload or raises, with two exceptions, and the pagination loops
themselves drop nothing.  In detail: (1–3) `jira_get` / `jira_post` /
`confluence_get` reach the post-loop `return {}` only when all 5
attempts were consumed and the final attempt was answered HTTP 429;
(4) `gh` returns its empty warn-result only when some attempt failed
with a stderr matching no rate-limit phrase; (5) whenever `fetch_pages`
returns, its record list is exactly the concatenation, in order, of the
pages of every offset it requested, and the last page was short;
(6) whenever `fetch_sprint_total` returns, its counters aggregate
exactly the issues of every page consumed, and the last page consumed
had no issues or no continuation token.  So a fetch returns a silently
truncated set only through the empty payloads of (1–4), which the
pagination loops cannot distinguish from server-signalled
end-of-results. -/
theorem C1_complete_or_raise_amended :
    (∀ (α : Type) (resps : Nat → HttpResp α),
        (jira_get resps).outcome = .fellThrough →
        ∃ ra body, resps MAX_RETRIES = .httpErr 429 ra body) ∧
    (∀ (α : Type) (resps : Nat → HttpResp α),
        (jira_post resps).outcome = .fellThrough →
        ∃ ra body, resps MAX_RETRIES = .httpErr 429 ra body) ∧
    (∀ (α : Type) (resps : Nat → HttpResp α),
        (confluence_get resps).outcome = .fellThrough →
        ∃ ra body, resps MAX_RETRIES = .httpErr 429 ra body) ∧
    (∀ (α : Type) (resps : Nat → GhResp α),
        (gh resps).outcome = .warnedEmpty →
        ∃ k s, 1 ≤ k ∧ k ≤ MAX_RETRIES ∧ resps k = .err s ∧ rateLimitPhrase s = false) ∧
    (∀ (α : Type) (srv : Nat → List α) (fuel : Nat) (recs : List α) (offs : List Nat),
        fetch_pages srv fuel = some (recs, offs) →
        recs = (offs.map srv).flatten ∧
          ∃ l, offs.getLast? = some l ∧ (srv l).length < PAGE_LIMIT) ∧
    (∀ (spFields : List String) (pages : List SearchPage) (res : SprintResult) (n : Nat),
        fetch_sprint_total spFields pages = some (res, n) →
        1 ≤ n ∧ n ≤ pages.length ∧
          res = finalizeSprint (stepPage spFields ⟨0, 0, 0⟩
            (((pages.take n).map SearchPage.issues).flatten)) ∧
          ∃ pg, pages[n - 1]? = some pg ∧
            (pg.issues = [] ∨ tokenTruthy pg.nextPageToken = false)) := by
  refine ⟨?_, ?_, ?_, ?_, ?_, ?_⟩
  · intro α resps h
    exact jiraRetryAux_fellThrough_429 MAX_RETRIES 1 resps rfl (by decide) h
  · intro α resps h
    exact jiraRetryAux_fellThrough_429 MAX_RETRIES 1 resps rfl (by decide) h
  · intro α resps h
    exact confluenceRetryAux_fellThrough_429 MAX_RETRIES 1 resps rfl (by decide) h
  · intro α resps h
    obtain ⟨k, s, hk1, hk2, hk3, hk4⟩ := ghAux_warnedEmpty_nonrate MAX_RETRIES 1 resps h
    have hM : MAX_RETRIES = 5 := rfl
    exact ⟨k, s, hk1, by omega, hk3, hk4⟩
  · intro α srv fuel recs offs h
    exact fetchPagesAux_complete fuel h
  · intro spFields pages res n h
    have e : fetch_sprint_total spFields pages =
        (fetchSprintAux spFields pages ⟨0, 0, 0⟩).map fun p => (finalizeSprint p.1, p.2) := rfl
    rw [e] at h
    rcases he : fetchSprintAux spFields pages ⟨0, 0, 0⟩ with - | ⟨a, n'⟩ <;> rw [he] at h
    · simp at h
    · simp only [Option.map_some', Option.some_inj, Prod.mk.injEq] at h
      obtain ⟨hres, hn⟩ := h
      subst hn
      obtain ⟨h1, h2, h3, pg, h4, h5⟩ := fetchSprintAux_complete spFields pages ⟨0, 0, 0⟩ a n' he
      exact ⟨h1, h2, by rw [← hres, h3], pg, h4, h5⟩

/-- C1 counterexample: `search_pr_numbers` composed with `gh`.  The
server's first page is full (100 items, the `per_page` size, so the
server signals more results), the second page request fails with HTTP
502 on every attempt.  `gh` returns `[]`, the search loop reads it as an
empty page and stops: the fetch returns a truncated 100-record set with
no error raised, although an identical server that answers page 2
delivers 101 records. -/
theorem C1_gh_truncation_counterexample :
    search_pr_numbers
        (fun page _ => if page = 1
          then GhResp.ok ⟨List.replicate 100 ⟨"https://api.github.com/repos/algolia/metis", 7⟩⟩
          else .err "HTTP 502 Bad Gateway") 3 =
      .done (List.replicate 100 ("algolia/metis", 7)) ∧
    search_pr_numbers
        (fun page _ => if page = 1
          then GhResp.ok ⟨List.replicate 100 ⟨"https://api.github.com/repos/algolia/metis", 7⟩⟩
          else if page = 2
          then .ok ⟨[⟨"https://api.github.com/repos/algolia/metis", 7⟩]⟩
          else .ok ⟨[]⟩) 3 =
      .done (List.replicate 101 ("algolia/metis", 7)) := by
  constructor
  · decide
  · decide

/-- Concrete schedules for the C1 witness. -/
def c1WJ : Nat → HttpResp Unit := fun _ => .httpErr 429 (some 1) "slow down"

def c1WG : Nat → GhResp Unit := fun _ => .err "unexpected end of JSON input"

def c1WSrv : Nat → List Nat := fun s => if s = 0 then [5, 6] else []

theorem C1_complete_or_raise_amended_witness :
    (∃ ra body, c1WJ MAX_RETRIES = HttpResp.httpErr 429 ra body) ∧
    (∃ k s, 1 ≤ k ∧ k ≤ MAX_RETRIES ∧ c1WG k = .err s ∧ rateLimitPhrase s = false) ∧
    ([5, 6] = (([0] : List Nat).map c1WSrv).flatten ∧
      ∃ l, ([0] : List Nat).getLast? = some l ∧ (c1WSrv l).length < PAGE_LIMIT) ∧
    (1 ≤ 1 ∧ 1 ≤ ([(⟨[], none⟩ : SearchPage)] : List SearchPage).length ∧
      (⟨0, 0, 0⟩ : SprintResult) = finalizeSprint (stepPage [] ⟨0, 0, 0⟩
        ((([(⟨[], none⟩ : SearchPage)].take 1).map SearchPage.issues).flatten)) ∧
      ∃ pg, ([(⟨[], none⟩ : SearchPage)] : List SearchPage)[1 - 1]? = some pg ∧
        (pg.issues = [] ∨ tokenTruthy pg.nextPageToken = false)) :=
  ⟨C1_complete_or_raise_amended.1 Unit c1WJ (by decide),
   C1_complete_or_raise_amended.2.2.2.1 Unit c1WG (by decide),
   C1_complete_or_raise_amended.2.2.2.2.1 Nat c1WSrv 1 [5, 6] [0] (by decide),
   C1_complete_or_raise_amended.2.2.2.2.2 [] [⟨[], none⟩] ⟨0, 0, 0⟩ 1 (by
      norm_num [fetch_sprint_total, fetchSprintAux, tokenTruthy, stepPage, finalizeSprint,
        pyRound1, pyRoundInt])⟩

end AnnualReview
